import Mathlib

set_option maxHeartbeats 1000000

/- Verification development for the BEF to MLIR converter (bef_to_mlir.cc).

   Bytes are modelled as natural numbers (the source stores them in
   uint8_t arrays, so concrete inputs use values below 256); 32-bit and
   64-bit machine words are Nat values assembled little-endian from
   bytes, exactly as the source reads them on a little-endian host.
   Fallible code returns Option or the Res type below.  The helper
   classes BEFReader and BEFKernel and the constants of bef_encoding.h
   are not part of the provided sources; they are modelled from the
   specification where needed, and each such definition says so in its
   doc comment. -/

/-- MLIR types as the decoder observes them: the builtin NoneType used
for registers with no type information, integer and float types of a
given width, and all other parsed types kept abstractly by the string
that named them. -/
inductive MType where
  | noneT
  | i (width : Nat)
  | f (width : Nat)
  | named (s : String)
deriving DecidableEq

/-- Source locations: the caller supplied location of the whole file,
a FileLineCol location decoded from the LocationPositions section, or
the unknown location. -/
inductive Loc where
  | origin
  | fileLineCol (filename : List Nat) (line : Nat) (column : Nat)
  | unknownLoc
deriving DecidableEq

/-- Diagnostic severity: mlir emitError or emitWarning. -/
inductive Sev where
  | error
  | warning
deriving DecidableEq

/-- One diagnostic, as issued through EmitError and EmitWarning in
bef_to_mlir.cc.  All of those calls pass the module level location, so
only the severity and the message are kept. -/
structure Diag where
  sev : Sev
  msg : String
deriving DecidableEq

/-- An SSA value of the decoded IR: block argument number i, or result
number k of the operation at position op in its block. -/
inductive Value where
  | arg (i : Nat)
  | res (op : Nat) (k : Nat)
deriving DecidableEq

/-- A value together with its MLIR type (mlir Value carries its type). -/
structure TValue where
  val : Value
  ty : MType
deriving DecidableEq

/-- MLIR attributes as produced by BEFAttributeReader. -/
inductive MAttr where
  | int (width : Nat) (value : Nat)
  | float (width : Nat) (bits : Nat)
  | bool (b : Bool)
  | str (bytes : List Nat)
  | typ (t : MType)
  | arr (elems : List MAttr)
  | dense (dtype : MType) (shape : List Nat) (elems : List MAttr)
  | unit
  | symbolRef (name : List Nat)
  | null

/-- Outcome of a piece of C++ code in the converter: normal completion,
a clean failure (mlir::failure or a null return value), or abnormal
termination (a failed assert, an out of range vector::at, or getValue
on an empty Optional). -/
inductive Res (α : Type) where
  | ok (a : α)
  | fail
  | thrown

/-- Turns a list of byte values into a Lean string, byte per character. -/
def byteStr (bs : List Nat) : String :=
  String.mk (bs.map Char.ofNat)

namespace BEFAttributeReader

/-- Loop of BEFAttributeReader::ReadLength, entered with the cursor
already moved to offset - 1: while the byte at the cursor has its high
bit set, fold its low 7 bits into the accumulator and step the cursor
back; the byte with clear high bit is folded last.  The source asserts
offset is greater than 0 before each step back, so running out of
bytes is modelled as none. -/
def ReadLengthGo (attributes : List Nat) : Nat → Nat → Option Nat
  | 0, value =>
    let b := attributes.getD 0 0
    if b / 128 % 2 = 1 then none
    else some (value * 128 + b % 128)
  | o + 1, value =>
    let b := attributes.getD (o + 1) 0
    if b / 128 % 2 = 1 then ReadLengthGo attributes o (value * 128 + b % 128)
    else some (value * 128 + b % 128)

/-- BEFAttributeReader::ReadLength: the length of a string or array
attribute, decoded from the bytes right before the attribute, reading
backwards from offset - 1. -/
def ReadLength (attributes : List Nat) (offset : Nat) : Option Nat :=
  match offset with
  | 0 => none
  | o + 1 => ReadLengthGo attributes o 0

end BEFAttributeReader

/-- Value of the reverse VBR run of k bytes that starts at address p:
the byte at the smallest address p carries the least significant 7
bits, and each byte one address higher carries the next 7 bits. -/
def revVbrValue (attributes : List Nat) (p : Nat) : Nat → Nat
  | 0 => 0
  | k + 1 => revVbrValue attributes p k + (attributes.getD (p + k) 0 % 128) * 128 ^ k

/-- The length decode as claim C2 words it: the j-th byte read (reading
backwards from offset - 1) would carry weight 128 ^ j, so the final
byte read, at the smallest address, would contribute the most
significant bits.  This definition follows the words of the claim and
is compared against the source function ReadLength. -/
def claimedMsbFinalGo (attributes : List Nat) : Nat → Nat → Nat → Option Nat
  | 0, j, acc =>
    let b := attributes.getD 0 0
    if b / 128 % 2 = 1 then none
    else some (acc + b % 128 * 128 ^ j)
  | o + 1, j, acc =>
    let b := attributes.getD (o + 1) 0
    if b / 128 % 2 = 1 then claimedMsbFinalGo attributes o (j + 1) (acc + b % 128 * 128 ^ j)
    else some (acc + b % 128 * 128 ^ j)

/-- Entry point of the claim-worded decode, mirroring ReadLength. -/
def claimedMsbFinalLength (attributes : List Nat) (offset : Nat) : Option Nat :=
  match offset with
  | 0 => none
  | o + 1 => claimedMsbFinalGo attributes o 0 0

/-- Little endian variable byte integer: 7 bit groups, least
significant group first, high bit of a byte set when more bytes
follow.  Returns the decoded value and the number of bytes consumed.
Modelled from the spec (sections 4.A and 6): the BEFReader helper is
not part of the provided sources. -/
def decodeVarint : List Nat → Option (Nat × Nat)
  | [] => none
  | b :: rest =>
    if b / 128 % 2 = 1 then
      match decodeVarint rest with
      | some (v, n) => some (b % 128 + 128 * v, n + 1)
      | none => none
    else some (b % 128, 1)

/-- Little endian value of a byte list: first byte least significant. -/
def leWord (bs : List Nat) : Nat :=
  bs.foldr (fun b acc => acc * 256 + b % 256) 0

/-- Modelled from the spec: the low level BEF byte reader, a cursor
over an immutable byte buffer. -/
structure BEFReader where
  data : List Nat
  pos : Nat
deriving DecidableEq

/-- A reader standing at the start of a buffer. -/
def BEFReader.mk0 (bytes : List Nat) : BEFReader := ⟨bytes, 0⟩

/-- The remaining bytes, as the file() accessor returns them. -/
def BEFReader.file (r : BEFReader) : List Nat := r.data.drop r.pos

/-- True when no bytes remain. -/
def BEFReader.Empty (r : BEFReader) : Bool := decide (r.data.length ≤ r.pos)

/-- Reads one byte; fails when no bytes remain. -/
def BEFReader.ReadByte (r : BEFReader) : Option (Nat × BEFReader) :=
  match r.file with
  | [] => none
  | b :: _ => some (b, ⟨r.data, r.pos + 1⟩)

/-- Reads a varint; fails on a truncated group. -/
def BEFReader.ReadInt (r : BEFReader) : Option (Nat × BEFReader) :=
  match decodeVarint r.file with
  | some (v, n) => some (v, ⟨r.data, r.pos + n⟩)
  | none => none

/-- Reads a fixed width 8 byte little endian integer. -/
def BEFReader.ReadInt8 (r : BEFReader) : Option (Nat × BEFReader) :=
  if 8 ≤ r.file.length then some (leWord (r.file.take 8), ⟨r.data, r.pos + 8⟩)
  else none

/-- Advances the cursor to the next multiple of n; fails when that
would pass the end of the buffer. -/
def BEFReader.ReadAlignment (r : BEFReader) (n : Nat) : Option BEFReader :=
  let p := (r.pos + n - 1) / n * n
  if p ≤ r.data.length then some ⟨r.data, p⟩ else none

/-- ReadSection combined with the SkipPast call that always follows it
in ReadNextSection: one byte id, a varint length, the borrowed
payload; the returned reader stands past the payload. -/
def BEFReader.ReadSection (r : BEFReader) : Option (Nat × List Nat × BEFReader) :=
  match r.ReadByte with
  | none => none
  | some (id, r1) =>
    match r1.ReadInt with
    | none => none
    | some (len, r2) =>
      if r2.pos + len ≤ r2.data.length then
        some (id, r2.file.take len, ⟨r2.data, r2.pos + len⟩)
      else none

/-- The kernel entry stream: the remaining function bytes viewed as an
array of 32 bit little endian words, partial trailing words dropped. -/
def bytesToWords : List Nat → List Nat
  | b0 :: b1 :: b2 :: b3 :: rest =>
      (b0 % 256 + 256 * (b1 % 256) + 65536 * (b2 % 256) + 16777216 * (b3 % 256))
        :: bytesToWords rest
  | _ => []

/-- Modelled from the spec: function kinds of the function index.  The
source only ever compares against the native kind. -/
inductive FunctionKind where
  | kBEFFunction
  | kNativeFunction
deriving DecidableEq

/-- Decodes the kind byte of a function index entry. -/
def FunctionKind.ofByte (b : Nat) : FunctionKind :=
  if b = 1 then .kNativeFunction else .kBEFFunction

/-- BEFFunction: offset, name and kind of one function index entry,
with its argument and result types. -/
structure BEFFunction where
  function_offset : Nat
  name : List Nat
  kind : FunctionKind
  argument_types : List MType
  result_types : List MType
deriving DecidableEq

/-- Named functions become top level functions of the module. -/
def BEFFunction.IsNamedFunction (f : BEFFunction) : Bool := decide (f.name ≠ [])

/-- Native functions have no body. -/
def BEFFunction.IsNativeFunction (f : BEFFunction) : Bool :=
  decide (f.kind = .kNativeFunction)

/-- DenseMap::insert keeps an existing entry for the key. -/
def insertNoReplace {α : Type} (m : List (Nat × α)) (k : Nat) (v : α) :
    List (Nat × α) :=
  match m.lookup k with
  | some _ => m
  | none => m ++ [(k, v)]

/-- Assignment through operator[]: replaces an existing entry. -/
def setKV {α : Type} (m : List (Nat × α)) (k : Nat) (v : α) : List (Nat × α) :=
  match m.lookup k with
  | some _ => m.map (fun p => if p.1 = k then (k, v) else p)
  | none => m ++ [(k, v)]

/-- BEFFile: the tables decoded by the first phase. -/
structure BEFFile where
  location_filenames : List (List Nat)
  location_positions : List (Nat × Loc)
  strings : List (Nat × List Nat)
  attributes : List (Nat × MAttr)
  kernels : List (List Nat)
  types : List (Option MType)
  function_index : List BEFFunction

/-- The empty BEFFile the converter starts from. -/
def BEFFile.empty : BEFFile := ⟨[], [], [], [], [], [], []⟩

/-- Returns the filename at index into the LocationFilenames table. -/
def BEFFile.GetLocationFilename (f : BEFFile) (index : Nat) : Option (List Nat) :=
  f.location_filenames[index]?

/-- Returns the location stored for a LocationPositions offset. -/
def BEFFile.GetLocationPosition (f : BEFFile) (offset : Nat) : Option Loc :=
  f.location_positions.lookup offset

/-- Returns the string at an offset into the Strings section. -/
def BEFFile.GetString (f : BEFFile) (offset : Nat) : Option (List Nat) :=
  f.strings.lookup offset

/-- Returns the attribute at an offset into the Attributes section, or
the null attribute if there is none. -/
def BEFFile.GetAttribute (f : BEFFile) (offset : Nat) : MAttr :=
  (f.attributes.lookup offset).getD .null

/-- Returns the type at an index into the Types section, or the null
type (modelled as none) if out of range or stored null. -/
def BEFFile.GetType (f : BEFFile) (index : Nat) : Option MType :=
  match f.types[index]? with
  | some (some t) => some t
  | _ => none

/-- Returns the function index entry, or none when out of range. -/
def BEFFile.GetFunction (f : BEFFile) (index : Nat) : Option BEFFunction :=
  f.function_index[index]?

/-- Modelled from the spec: BEFKernel, a view of one kernel entry in
the word stream.  The entry holds the name handle, the location
offset, four counts, then used_by_counts[num_results], then the flat
word stream addressed by GetKernelEntries. -/
structure BEFKernel where
  words : List Nat

/-- Name handle of the kernel. -/
def BEFKernel.kernel_code (k : BEFKernel) : Nat := k.words.getD 0 0

/-- Location offset of the kernel. -/
def BEFKernel.kernel_location (k : BEFKernel) : Nat := k.words.getD 1 0

/-- Number of argument words. -/
def BEFKernel.num_arguments (k : BEFKernel) : Nat := k.words.getD 2 0

/-- Number of attribute words. -/
def BEFKernel.num_attributes (k : BEFKernel) : Nat := k.words.getD 3 0

/-- Number of function reference words. -/
def BEFKernel.num_functions (k : BEFKernel) : Nat := k.words.getD 4 0

/-- Number of result words. -/
def BEFKernel.num_results (k : BEFKernel) : Nat := k.words.getD 5 0

/-- The i-th used_by count. -/
def BEFKernel.num_used_bys (k : BEFKernel) (i : Nat) : Nat := k.words.getD (6 + i) 0

/-- n words of the flat stream beginning at the given entry offset.
The C++ ArrayRef always has length n; a word past the end of the
stream (undefined behaviour in C++ on a truncated input) is modelled
as 0, and the theorems below stay within range. -/
def BEFKernel.GetKernelEntries (k : BEFKernel) (offset n : Nat) : List Nat :=
  (List.range n).map (fun j => k.words.getD (6 + k.num_results + offset + j) 0)

namespace BEFAttributeReader

/-- The state of BEFAttributeReader: the raw attribute pool and the
tables read so far. -/
structure AttrCtx where
  attributes : List Nat
  bef : BEFFile

/-- Modelled from the spec: the descriptor packs the kind in its low
bits and the payload above them. -/
def kAttributeTypeIDShift : Nat := 3

/-- Modelled from the spec: mask selecting the kind bits. -/
def kAttributeTypeIDMask : Nat := 7

/-- Reads num_bytes little endian bytes; on a truncated read the byte
loop of the source consumes everything that remains and fails. -/
def readLEBytes (r : BEFReader) (num_bytes : Nat) : Option Nat × BEFReader :=
  if num_bytes ≤ r.file.length then
    (some (leWord (r.file.take num_bytes)), ⟨r.data, r.pos + num_bytes⟩)
  else (none, ⟨r.data, r.data.length⟩)

/-- BEFAttributeReader::ReadIntegerAttribute: 1, 32 and 64 bit widths
read 1, 4 and 8 bytes; any other width is an error. -/
def ReadIntegerAttribute (r : BEFReader) (bit_width : Nat) :
    Option Nat × BEFReader × List Diag :=
  if bit_width = 1 then
    match readLEBytes r 1 with
    | (v, r1) => (v, r1, [])
  else if bit_width = 32 then
    match readLEBytes r 4 with
    | (v, r1) => (v, r1, [])
  else if bit_width = 64 then
    match readLEBytes r 8 with
    | (v, r1) => (v, r1, [])
  else (none, r, [⟨.error, "Unknown integer attribute width"⟩])

/-- BEFAttributeReader::ReadFloatAttribute: only 32 bit floats are
accepted; other widths are an error. -/
def ReadFloatAttribute (r : BEFReader) (bit_width : Nat) :
    Option Nat × BEFReader × List Diag :=
  if bit_width = 32 then ReadIntegerAttribute r bit_width
  else (none, r, [⟨.error, "Unknown float attribute width"⟩])

/-- BEFAttributeReader::ReadStandardAttribute: integer and float types
read a fixed width value; everything else is an error yielding the
null attribute. -/
def ReadStandardAttribute (r : BEFReader) (type : Option MType) :
    MAttr × BEFReader × List Diag :=
  match type with
  | some (.i w) =>
    match ReadIntegerAttribute r w with
    | (some v, r1, ds) => (.int w v, r1, ds)
    | (none, r1, ds) => (.null, r1, ds)
  | some (.f w) =>
    match ReadFloatAttribute r w with
    | (some v, r1, ds) => (.float w v, r1, ds)
    | (none, r1, ds) => (.null, r1, ds)
  | _ => (.null, r, [⟨.error, "Unknown standard attribute type"⟩])

/-- BEFAttributeReader::ReadBoolAttribute: one byte. -/
def ReadBoolAttribute (r : BEFReader) : MAttr × BEFReader :=
  match r.ReadByte with
  | some (b, r1) => (.bool (decide (b ≠ 0)), r1)
  | none => (.null, r)

/-- BEFAttributeReader::ReadStringAttribute: the length sits right
before the current position, the bytes start at it; the reader is not
advanced.  A failed length walk is the failed assert of ReadLength. -/
def ReadStringAttribute (ctx : AttrCtx) (r : BEFReader) : Res (MAttr × BEFReader) :=
  match ReadLength ctx.attributes r.pos with
  | none => .thrown
  | some len => .ok (.str ((ctx.attributes.drop r.pos).take len), r)

/-- Modelled from the spec: the one byte type codes of a type
attribute, in the order the spec lists them. -/
def DecodeTypeAttribute (b : Nat) : Option MType :=
  if b = 0 then some (.i 1)
  else if b = 1 then some (.i 32)
  else if b = 2 then some (.i 64)
  else if b = 3 then some (.f 16)
  else if b = 4 then some (.f 32)
  else if b = 5 then some (.f 64)
  else none

/-- BEFAttributeReader::ReadTypeAttribute: one byte; an unknown code is
unreachable in the source. -/
def ReadTypeAttribute (r : BEFReader) : Res (MAttr × BEFReader) :=
  match r.ReadByte with
  | none => .ok (.null, r)
  | some (b, r1) =>
    match DecodeTypeAttribute b with
    | some t => .ok (.typ t, r1)
    | none => .thrown

/-- Shape dimension loop of ReadDenseElementsAttribute. -/
def readDenseDims (r : BEFReader) : Nat → Option (List Nat × BEFReader)
  | 0 => some ([], r)
  | n + 1 =>
    match r.ReadInt8 with
    | none => none
    | some (d, r1) =>
      match readDenseDims r1 n with
      | none => none
      | some (ds, r2) => some (d :: ds, r2)

/-- Element loop of ReadDenseElementsAttribute. -/
def readDenseElems (r : BEFReader) (dtype : Option MType) :
    Nat → List MAttr × BEFReader × List Diag
  | 0 => ([], r, [])
  | n + 1 =>
    match ReadStandardAttribute r dtype with
    | (a, r1, ds) =>
      match readDenseElems r1 dtype n with
      | (as_, r2, ds2) => (a :: as_, r2, ds ++ ds2)

/-- BEFAttributeReader::ReadDenseElementsAttribute: an 8 byte packed
header, an 8 byte count, the dimensions, then the elements. -/
def ReadDenseElementsAttribute (r : BEFReader) :
    Res (MAttr × BEFReader) × List Diag :=
  match r.ReadInt8 with
  | none => (.ok (.null, r), [])
  | some (dtype_and_shape_rank, r1) =>
    match r1.ReadInt8 with
    | none => (.ok (.null, r1), [])
    | some (elements_count, r2) =>
      match DecodeTypeAttribute (dtype_and_shape_rank / 2 ^ 56) with
      | none => (.thrown, [])
      | some dtype =>
        let shape_rank := dtype_and_shape_rank % 2 ^ 56
        match readDenseDims r2 shape_rank with
        | none => (.ok (.null, r2), [])
        | some (dims, r3) =>
          match readDenseElems r3 (some dtype) elements_count with
          | (elems, r4, ds) => (.ok (.dense dtype dims elems, r4), ds)

/-- The 4 byte descriptor records of an offset array; only the offset
field is consumed by the source.  Modelled from the spec. -/
def offsetArrayDescriptors (attributes : List Nat) (pos : Nat) :
    Nat → List Nat
  | 0 => []
  | n + 1 =>
      leWord ((attributes.drop pos).take 4)
        :: offsetArrayDescriptors attributes (pos + 4) n

/-- BEFAttributeReader::ReadOffsetArrayAttribute: elements were decoded
earlier in the pool and are looked up by offset; the reader does not
advance. -/
def ReadOffsetArrayAttribute (ctx : AttrCtx) (r : BEFReader) :
    Res (MAttr × BEFReader) :=
  match ReadLength ctx.attributes r.pos with
  | none => .thrown
  | some len =>
    if len = 0 then .ok (.arr [], r)
    else if len * 4 + r.pos ≤ ctx.attributes.length then
      .ok (.arr ((offsetArrayDescriptors ctx.attributes r.pos len).map
        (fun off => ctx.bef.GetAttribute off)), r)
    else .thrown

mutual

/-- BEFAttributeReader::ReadAttribute dispatching on the kind bits of
the descriptor; flat arrays recurse with the payload as the element
descriptor, so the recursion carries fuel (becoming exhausted models
nontermination and is never reached on the inputs of the theorems
below). -/
def ReadAttribute (ctx : AttrCtx) :
    Nat → BEFReader → Nat → Res (MAttr × BEFReader) × List Diag
  | 0, _, _ => (.thrown, [])
  | fuel + 1, r, attribute_type =>
    let id := attribute_type % 2 ^ kAttributeTypeIDShift
    let payload := attribute_type / 2 ^ kAttributeTypeIDShift
    if id = 0 then
      match ReadStandardAttribute r (ctx.bef.GetType payload) with
      | (a, r1, ds) => (.ok (a, r1), ds)
    else if id = 1 then (.ok (ReadBoolAttribute r), [])
    else if id = 2 then (ReadStringAttribute ctx r, [])
    else if id = 3 then (ReadTypeAttribute r, [])
    else if id = 4 then ReadDenseElementsAttribute r
    else if id = 5 then
      match ReadLength ctx.attributes r.pos with
      | none => (.thrown, [])
      | some len =>
        if len = 0 then (.ok (.arr [], r), [])
        else readFlatElems ctx fuel r payload len
    else if id = 6 then (ReadOffsetArrayAttribute ctx r, [])
    else (.ok (.null, r), [⟨.error, "Unknown attribute type"⟩])
termination_by fuel r t => (fuel, 0)
decreasing_by
  all_goals simp_wf
  all_goals exact Prod.Lex.left _ _ (by omega)

/-- Element loop of ReadFlatArrayAttribute. -/
def readFlatElems (ctx : AttrCtx) :
    Nat → BEFReader → Nat → Nat → Res (MAttr × BEFReader) × List Diag
  | _, r, _, 0 => (.ok (.arr [], r), [])
  | fuel, r, element_type, n + 1 =>
    match ReadAttribute ctx fuel r element_type with
    | (.fail, ds) => (.fail, ds)
    | (.thrown, ds) => (.thrown, ds)
    | (.ok (a, r1), ds) =>
      match readFlatElems ctx fuel r1 element_type n with
      | (.ok (.arr as_, r2), ds2) => (.ok (.arr (a :: as_), r2), ds ++ ds2)
      | (.ok (other, r2), ds2) => (.ok (other, r2), ds ++ ds2)
      | (.fail, ds2) => (.fail, ds ++ ds2)
      | (.thrown, ds2) => (.thrown, ds ++ ds2)
termination_by fuel r t n => (fuel, n + 1)
decreasing_by
  all_goals simp_wf
  all_goals first
    | exact Prod.Lex.left _ _ (by omega)
    | exact Prod.Lex.right _ (by omega)

end

/-- ReadAttribute at an offset of the attribute pool: the overload that
opens a fresh reader over the pool dropped to the offset; the fresh
reader shares the pool, so its cursor equals the pool offset.  The
fuel is generous enough for every input of the theorems below. -/
def ReadAttributeAtOffset (ctx : AttrCtx) (attribute_type offset : Nat) :
    Res MAttr × List Diag :=
  match ReadAttribute ctx (ctx.attributes.length + attribute_type + 64)
      ⟨ctx.attributes, offset⟩ attribute_type with
  | (.ok (a, _), ds) => (.ok a, ds)
  | (.fail, ds) => (.fail, ds)
  | (.thrown, ds) => (.thrown, ds)

end BEFAttributeReader

/-- Loop of ReadIntArray over a known count. -/
def readIntArrayGo : BEFReader → Nat → Option (List Nat) × BEFReader
  | r, 0 => (some [], r)
  | r, n + 1 =>
    match r.ReadInt with
    | none => (none, r)
    | some (v, r1) =>
      match readIntArrayGo r1 n with
      | (some vs, r2) => (some (v :: vs), r2)
      | (none, r2) => (none, r2)

/-- ReadIntArray: a varint count then that many varint items.  The
reader is returned in its advanced state even on failure. -/
def ReadIntArray (r : BEFReader) : Option (List Nat) × BEFReader :=
  match r.ReadInt with
  | none => (none, r)
  | some (n, r1) => readIntArrayGo r1 n

/-- RegisterInfo: type, declared use count, used-by kernel entries and
the value once the defining operation has been processed. -/
structure RegisterInfo where
  type : MType
  num_uses : Nat
  usedbys : List Nat
  value : Option TValue
deriving DecidableEq

/-- One kernel table entry: entry stream offset and operand count. -/
structure KernelTableEntry where
  offset : Nat
  num_operands : Nat
deriving DecidableEq

/-- A decoded MLIR operation: name, location, operand values, named
attributes in insertion order, result types and the number of nested
region slots. -/
structure Op where
  name : String
  loc : Loc
  operands : List TValue
  attrs : List (String × MAttr)
  resultTypes : List MType
  numRegions : Nat

/-- A region with one block: the block argument types and the ordered
operations of the block. -/
structure MRegion where
  args : List MType
  ops : List Op

/-- A top level MLIR function of the produced module. -/
structure FuncOp where
  name : String
  loc : Loc
  argTypes : List MType
  resTypes : List MType
  native : Bool
  body : Option MRegion

namespace BEFFunctionReader

/-- BEFFunctionReader::GetRegister: the source asserts the index is in
range and then indexes the vector, so an out of range index aborts. -/
def GetRegister (regs : List RegisterInfo) (register_index : Nat) :
    Res RegisterInfo :=
  match regs[register_index]? with
  | some reg => .ok reg
  | none => .thrown

/-- BEFFunctionReader::AddDefinition: a second definition of a register
is a clean failure with a diagnostic; the source then asserts that the
register type matches the value type unless the register was typed
NoneType. -/
def AddDefinition (regs : List RegisterInfo) (value : TValue)
    (register_index : Nat) : Res (List RegisterInfo) × List Diag :=
  match GetRegister regs register_index with
  | .thrown => (.thrown, [])
  | .fail => (.fail, [])
  | .ok reg =>
    if reg.value.isSome then (.fail, [⟨.error, "Redefinition of registers"⟩])
    else if reg.type = value.ty ∨ reg.type = .noneT then
      (.ok (regs.set register_index { reg with value := some value }), [])
    else (.thrown, [])

/-- Operand resolution loop of ReadKernel: each operand register must
already hold a value, otherwise the kernel read fails. -/
def resolveArguments (regs : List RegisterInfo) :
    List Nat → Res (List TValue) × List Diag
  | [] => (.ok [], [])
  | idx :: rest =>
    match GetRegister regs idx with
    | .thrown => (.thrown, [])
    | .fail => (.fail, [])
    | .ok reg =>
      match reg.value with
      | none => (.fail, [⟨.error, "Using undefined registers."⟩])
      | some v =>
        match resolveArguments regs rest with
        | (.ok vs, ds) => (.ok (v :: vs), ds)
        | (.fail, ds) => (.fail, ds)
        | (.thrown, ds) => (.thrown, ds)

/-- Result type loop of ReadKernel: each result pushes the type of its
register. -/
def resolveResultTypes (regs : List RegisterInfo) :
    List Nat → Res (List MType)
  | [] => .ok []
  | idx :: rest =>
    match GetRegister regs idx with
    | .thrown => .thrown
    | .fail => .fail
    | .ok reg =>
      match resolveResultTypes regs rest with
      | .ok tys => .ok (reg.type :: tys)
      | .fail => .fail
      | .thrown => .thrown

/-- Attribute loop of ReadKernel: names come from the AttributeNames
stream when it still yields offsets that resolve, and fall back to the
synthesized names attr0, attr1, ...; unknown attribute offsets are
substituted by the placeholder 32 bit integer 0xdeadbeef.  No
diagnostic is issued here. -/
def readKernelAttributes (bef : BEFFile) :
    BEFReader → List Nat → Nat → List (String × MAttr) × BEFReader
  | anames, [], _ => ([], anames)
  | anames, off :: rest, i =>
    let (attr_name, an1) :=
      match anames.ReadInt with
      | some (name_off, an1) =>
        (match bef.GetString name_off with
         | some s => byteStr s
         | none => "attr" ++ toString i, an1)
      | none => ("attr" ++ toString i, anames)
    let attr :=
      match bef.GetAttribute off with
      | .null => MAttr.int 32 3735928559
      | a => a
    match readKernelAttributes bef an1 rest (i + 1) with
    | (pairs, an2) => ((attr_name, attr) :: pairs, an2)

/-- Function reference loop of ReadKernel: named callees become callee
symbol attributes, unnamed ones reserve a nested region slot; an index
outside the function index is a clean failure. -/
def readKernelFunctions (bef : BEFFile) :
    List Nat → Res (List (String × MAttr) × Nat) × List Diag
  | [] => (.ok ([], 0), [])
  | fn_idx :: rest =>
    match bef.GetFunction fn_idx with
    | none => (.fail, [⟨.error, "Unknown callee."⟩])
    | some bf =>
      match readKernelFunctions bef rest with
      | (.ok (cs, nr), ds) =>
        if bf.IsNamedFunction then
          (.ok (("callee", MAttr.symbolRef bf.name) :: cs, nr), ds)
        else (.ok (cs, nr + 1), ds)
      | (.fail, ds) => (.fail, ds)
      | (.thrown, ds) => (.thrown, ds)

/-- Sets the usedbys field of a register; the index is in range
whenever the preceding AddDefinition succeeded. -/
def setUsedbys (regs : List RegisterInfo) (idx : Nat) (ub : List Nat) :
    List RegisterInfo :=
  match regs[idx]? with
  | some reg => regs.set idx { reg with usedbys := ub }
  | none => regs

/-- Definition and used-by loop of ReadKernel: result i of the new
operation is added as the definition of its register, then the
register receives its used-by entries and the entry cursor advances
past them. -/
def defineResults (kernel : BEFKernel) (opId : Nat) :
    List RegisterInfo → List Nat → List MType → Nat → Nat →
      Res (List RegisterInfo) × List Diag
  | regs, [], _, _, _ => (.ok regs, [])
  | regs, ridx :: rest, tys, i, entry_offset =>
    let ty := tys.getD i .noneT
    match AddDefinition regs ⟨.res opId i, ty⟩ ridx with
    | (.ok regs1, ds) =>
      let nub := kernel.num_used_bys i
      let regs2 := setUsedbys regs1 ridx (kernel.GetKernelEntries entry_offset nub)
      match defineResults kernel opId regs2 rest tys (i + 1) (entry_offset + nub) with
      | (.ok regs3, ds2) => (.ok regs3, ds ++ ds2)
      | (.fail, ds2) => (.fail, ds ++ ds2)
      | (.thrown, ds2) => (.thrown, ds ++ ds2)
    | (.fail, ds) => (.fail, ds)
    | (.thrown, ds) => (.thrown, ds)

/-- BEFFunctionReader::ReadKernel: decodes the kernel entry at a byte
offset of the word stream and produces the operation, the updated
register table, the advanced AttributeNames reader and, when the
kernel has nested region slots, the function indices recorded for the
third phase. -/
def ReadKernel (bef : BEFFile) (words : List Nat) (offset : Nat)
    (anames : BEFReader) (regs : List RegisterInfo) (opId : Nat) :
    Res (Op × List RegisterInfo × BEFReader × Option (List Nat)) × List Diag :=
  if offset % 4 ≠ 0 then (.thrown, [])
  else
    let kernel : BEFKernel := ⟨words.drop (offset / 4)⟩
    match bef.kernels[kernel.kernel_code]? with
    | none => (.thrown, [])
    | some nameBytes =>
      match bef.GetLocationPosition kernel.kernel_location with
      | none => (.thrown, [])
      | some loc =>
        let arguments := kernel.GetKernelEntries 0 kernel.num_arguments
        match resolveArguments regs arguments with
        | (.fail, ds) => (.fail, ds)
        | (.thrown, ds) => (.thrown, ds)
        | (.ok operands, _) =>
          let (nonstrictAttrs, an1) :=
            match anames.ReadByte with
            | some (b, an1) =>
              (if b = 1 then [("bef.nonstrict", MAttr.unit)]
               else ([] : List (String × MAttr)), an1)
            | none => ([], anames)
          let attr_offsets :=
            kernel.GetKernelEntries arguments.length kernel.num_attributes
          let (attrPairs, an2) := readKernelAttributes bef an1 attr_offsets 0
          let functions := kernel.GetKernelEntries
            (arguments.length + attr_offsets.length) kernel.num_functions
          match readKernelFunctions bef functions with
          | (.fail, ds) => (.fail, ds)
          | (.thrown, ds) => (.thrown, ds)
          | (.ok (calleeAttrs, numRegions), _) =>
            let results := kernel.GetKernelEntries
              (arguments.length + attr_offsets.length + functions.length)
              kernel.num_results
            match resolveResultTypes regs results with
            | .thrown => (.thrown, [])
            | .fail => (.fail, [])
            | .ok types =>
              let op : Op :=
                { name := byteStr nameBytes, loc := loc, operands := operands,
                  attrs := nonstrictAttrs ++ attrPairs ++ calleeAttrs,
                  resultTypes := types, numRegions := numRegions }
              match defineResults kernel opId regs results types 0
                  (arguments.length + attr_offsets.length + functions.length +
                    results.length) with
              | (.fail, ds) => (.fail, ds)
              | (.thrown, ds) => (.thrown, ds)
              | (.ok regs1, ds) =>
                if numRegions ≠ 0 then
                  if numRegions = functions.length then
                    (.ok (op, regs1, an2, some functions), ds)
                  else (.thrown, ds)
                else (.ok (op, regs1, an2, none), ds)

/-- Definition loop of ReadArgumentsPseudoKernel: the i-th result
register is defined as block argument i. -/
def pseudoDefs (entry_args : List MType) :
    List RegisterInfo → List Nat → Nat → Res (List RegisterInfo) × List Diag
  | regs, [], _ => (.ok regs, [])
  | regs, ridx :: rest, i =>
    match AddDefinition regs ⟨.arg i, entry_args.getD i .noneT⟩ ridx with
    | (.ok regs1, ds) =>
      match pseudoDefs entry_args regs1 rest (i + 1) with
      | (.ok regs2, ds2) => (.ok regs2, ds ++ ds2)
      | (.fail, ds2) => (.fail, ds ++ ds2)
      | (.thrown, ds2) => (.thrown, ds ++ ds2)
    | (.fail, ds) => (.fail, ds)
    | (.thrown, ds) => (.thrown, ds)

/-- Used-by loop of ReadArgumentsPseudoKernel. -/
def pseudoUsedbys (kernel : BEFKernel) :
    List RegisterInfo → List Nat → Nat → Nat → List RegisterInfo
  | regs, [], _, _ => regs
  | regs, ridx :: rest, i, entry_offset =>
    let nub := kernel.num_used_bys i
    pseudoUsedbys kernel
      (setUsedbys regs ridx (kernel.GetKernelEntries entry_offset nub))
      rest (i + 1) (entry_offset + nub)

/-- BEFFunctionReader::ReadArgumentsPseudoKernel: the first kernel
table entry defines the block argument registers; the source asserts
it has no arguments, attributes or functions and one result per block
argument. -/
def ReadArgumentsPseudoKernel (words : List Nat) (entry_args : List MType)
    (regs : List RegisterInfo) : Res (List RegisterInfo) × List Diag :=
  let kernel : BEFKernel := ⟨words⟩
  if kernel.num_arguments ≠ 0 ∨ kernel.num_attributes ≠ 0 ∨
      kernel.num_functions ≠ 0 ∨ kernel.num_results ≠ entry_args.length then
    (.thrown, [])
  else
    let results := kernel.GetKernelEntries 0 kernel.num_results
    match pseudoDefs entry_args regs results 0 with
    | (.ok regs1, ds) =>
      (.ok (pseudoUsedbys kernel regs1 results 0 results.length), ds)
    | (.fail, ds) => (.fail, ds)
    | (.thrown, ds) => (.thrown, ds)

/-- Kernel loop of ReadKernels from kernel_start onward: each table
entry is read and its operation appended to the block, the register
table, AttributeNames reader and deferred region references threading
through. -/
def kernelLoop (bef : BEFFile) (words : List Nat) :
    List KernelTableEntry → BEFReader → List RegisterInfo → Nat →
      Res (List Op × List RegisterInfo × BEFReader × List (Nat × List Nat)) ×
        List Diag
  | [], anames, regs, _ => (.ok ([], regs, anames, []), [])
  | e :: rest, anames, regs, opId =>
    match ReadKernel bef words e.offset anames regs opId with
    | (.ok (op, regs1, an1, refOpt), ds) =>
      match kernelLoop bef words rest an1 regs1 (opId + 1) with
      | (.ok (ops, regs2, an2, refs), ds2) =>
        (.ok (op :: ops, regs2, an2,
          match refOpt with
          | some idxs => (opId, idxs) :: refs
          | none => refs), ds ++ ds2)
      | (.fail, ds2) => (.fail, ds ++ ds2)
      | (.thrown, ds2) => (.thrown, ds ++ ds2)
    | (.fail, ds) => (.fail, ds)
    | (.thrown, ds) => (.thrown, ds)

/-- Return operand loop of ReadKernels: every result register must
hold a value. -/
def resolveReturnOperands (regs : List RegisterInfo) :
    List Nat → Res (List TValue) × List Diag
  | [] => (.ok [], [])
  | ridx :: rest =>
    match GetRegister regs ridx with
    | .thrown => (.thrown, [])
    | .fail => (.fail, [])
    | .ok reg =>
      match reg.value with
      | none =>
        (.fail, [⟨.error, "Using an undefined register in return op."⟩])
      | some v =>
        match resolveReturnOperands regs rest with
        | (.ok vs, ds) => (.ok (v :: vs), ds)
        | (.fail, ds) => (.fail, ds)
        | (.thrown, ds) => (.thrown, ds)

/-- BEFFunctionReader::ReadKernels: reads the per function kernel count
of the AttributeNames stream (asserting it matches the kernel table
when the read succeeds), the arguments pseudo kernel when the block
has arguments, then every ordinary kernel, and finally appends the
hex.return operation built from the result registers. -/
def ReadKernels (bef : BEFFile) (words : List Nat) (anames : BEFReader)
    (argTypes : List MType) (kernel_table : List KernelTableEntry)
    (result_regs : List Nat) (loc : Loc) (regs : List RegisterInfo) :
    Res (List Op × List RegisterInfo × BEFReader × List (Nat × List Nat)) ×
      List Diag :=
  let checked : Res BEFReader :=
    match anames.ReadInt with
    | some (n, an) => if n = kernel_table.length then .ok an else .thrown
    | none => .ok anames
  match checked with
  | .thrown => (.thrown, [])
  | .fail => (.fail, [])
  | .ok an0 =>
    let pseudo : Res (BEFReader × List RegisterInfo × List KernelTableEntry) ×
        List Diag :=
      if argTypes.isEmpty then (.ok (an0, regs, kernel_table), [])
      else
        match ReadArgumentsPseudoKernel words argTypes regs with
        | (.ok regs1, ds) =>
          let an1 :=
            match an0.ReadByte with
            | some (_, a) => a
            | none => an0
          (.ok (an1, regs1, kernel_table.drop 1), ds)
        | (.fail, ds) => (.fail, ds ++ [⟨.error, "Failed to read pseudo."⟩])
        | (.thrown, ds) => (.thrown, ds)
    match pseudo with
    | (.fail, ds) => (.fail, ds)
    | (.thrown, ds) => (.thrown, ds)
    | (.ok (an1, regs1, entries), ds0) =>
      match kernelLoop bef words entries an1 regs1 0 with
      | (.fail, ds) => (.fail, ds0 ++ ds)
      | (.thrown, ds) => (.thrown, ds0 ++ ds)
      | (.ok (ops, regs2, an2, refs), ds) =>
        match resolveReturnOperands regs2 result_regs with
        | (.fail, ds2) => (.fail, ds0 ++ ds ++ ds2)
        | (.thrown, ds2) => (.thrown, ds0 ++ ds ++ ds2)
        | (.ok rvals, ds2) =>
          let returnOp : Op :=
            { name := "hex.return", loc := loc, operands := rvals,
              attrs := [], resultTypes := [], numRegions := 0 }
          (.ok (ops ++ [returnOp], regs2, an2, refs), ds0 ++ ds ++ ds2)

/-- Register construction of ReadRegisterTable: a type index list (when
present) and the use counts are zipped; a missing or null type becomes
NoneType. -/
def buildRegs (bef : BEFFile) (rtIndices reg_uses : List Nat) :
    List RegisterInfo :=
  (List.range reg_uses.length).map (fun i =>
    let ty :=
      if rtIndices.isEmpty then MType.noneT
      else
        match bef.GetType (rtIndices.getD i 0) with
        | some t => t
        | none => MType.noneT
    { type := ty, num_uses := reg_uses.getD i 0, usedbys := [], value := none })

/-- BEFFunctionReader::ReadRegisterTable: reads the register type index
sub-array of this function (cleared when absent or unreadable) and the
register use counts; the source asserts equal sizes when types are
present.  Returns the registers and both advanced readers. -/
def ReadRegisterTable (bef : BEFFile) (fr rtypes : BEFReader) :
    Res (List RegisterInfo × BEFReader × BEFReader) :=
  let (rtIndices, rtypes1) :=
    match ReadIntArray rtypes with
    | (some xs, rt) => (xs, rt)
    | (none, rt) => (([] : List Nat), rt)
  match ReadIntArray fr with
  | (none, _) => .fail
  | (some reg_uses, fr1) =>
    if ¬rtIndices.isEmpty ∧ rtIndices.length ≠ reg_uses.length then .thrown
    else .ok (buildRegs bef rtIndices reg_uses, fr1, rtypes1)

/-- Loop of ReadKernelTable. -/
def readKernelTableGo : BEFReader → Nat → Option (List KernelTableEntry × BEFReader)
  | r, 0 => some ([], r)
  | r, n + 1 =>
    match r.ReadInt with
    | none => none
    | some (off, r1) =>
      match r1.ReadInt with
      | none => none
      | some (nops, r2) =>
        match readKernelTableGo r2 n with
        | none => none
        | some (es, r3) => some (⟨off, nops⟩ :: es, r3)

/-- BEFFunctionReader::ReadKernelTable: a count then one offset and
operand count per kernel. -/
def ReadKernelTable (r : BEFReader) :
    Option (List KernelTableEntry × BEFReader) :=
  match r.ReadInt with
  | none => none
  | some (n, r1) => readKernelTableGo r1 n

/-- Loop of ReadResultRegs over the declared result types. -/
def readResultRegsGo : BEFReader → Nat → Option (List Nat × BEFReader)
  | r, 0 => some ([], r)
  | r, n + 1 =>
    match r.ReadInt with
    | none => none
    | some (v, r1) =>
      match readResultRegsGo r1 n with
      | none => none
      | some (vs, r2) => some (v :: vs, r2)

/-- BEFFunctionReader::ReadResultRegs: one register index per declared
result type of the function. -/
def ReadResultRegs (r : BEFReader) (bf : BEFFunction) :
    Option (List Nat × BEFReader) :=
  readResultRegsGo r bf.result_types.length

/-- BEFFunctionReader::ReadFunction: location, register table, kernel
table, result registers, alignment to the 4 byte kernel stream, then
the kernels; returns the region with the advanced AttributeNames and
RegisterTypes readers and the deferred region references of this
function. -/
def ReadFunction (bef : BEFFile) (fnBytes : List Nat) (bf : BEFFunction)
    (anames rtypes : BEFReader) :
    Res ((Loc × MRegion) × BEFReader × BEFReader × List (Nat × List Nat)) ×
      List Diag :=
  let r0 := BEFReader.mk0 fnBytes
  match r0.ReadInt with
  | none => (.fail, [⟨.error, "Failed to read function location"⟩])
  | some (loc_off, r1) =>
    match bef.GetLocationPosition loc_off with
    | none => (.fail, [⟨.error, "Failed to read function location"⟩])
    | some loc =>
      match ReadRegisterTable bef r1 rtypes with
      | .fail => (.fail, [⟨.error, "Failed to read register table."⟩])
      | .thrown => (.thrown, [])
      | .ok (regs, r2, rtypes1) =>
        match ReadKernelTable r2 with
        | none => (.fail, [⟨.error, "Failed to read kernel table."⟩])
        | some (kernel_table, r3) =>
          match ReadResultRegs r3 bf with
          | none => (.fail, [⟨.error, "Failed to read result regs."⟩])
          | some (result_regs, r4) =>
            match r4.ReadAlignment 4 with
            | none => (.fail, [⟨.error, "Failed to read kernels."⟩])
            | some r5 =>
              let words := bytesToWords r5.file
              match ReadKernels bef words anames bf.argument_types
                  kernel_table result_regs loc regs with
              | (.fail, ds) =>
                (.fail, ds ++ [⟨.error, "Failed to read kernels."⟩])
              | (.thrown, ds) => (.thrown, ds)
              | (.ok (ops, _, an2, refs), ds) =>
                (.ok ((loc, ⟨bf.argument_types, ops⟩), an2, rtypes1, refs), ds)

end BEFFunctionReader

namespace BEFToMLIRConverter

/-- Modelled from the spec: the closed set of section identifiers in
the listed order, numbered from 0. -/
def kFormatVersion : Nat := 0

/-- LocationFilenames section id. -/
def kLocationFilenames : Nat := 1

/-- LocationPositions section id. -/
def kLocationPositions : Nat := 2

/-- Strings section id. -/
def kStrings : Nat := 3

/-- Attributes section id. -/
def kAttributes : Nat := 4

/-- Kernels section id. -/
def kKernels : Nat := 5

/-- Types section id. -/
def kTypes : Nat := 6

/-- Functions section id. -/
def kFunctions : Nat := 7

/-- FunctionIndex section id. -/
def kFunctionIndex : Nat := 8

/-- AttributeTypes section id. -/
def kAttributeTypes : Nat := 9

/-- AttributeNames section id. -/
def kAttributeNames : Nat := 10

/-- RegisterTypes section id. -/
def kRegisterTypes : Nat := 11

/-- Number of known section identifiers, the size of the section
vector. -/
def kNumSectionIDs : Nat := 12

/-- Modelled from the spec (scenario S1): the two magic bytes. -/
def kBEFMagic1 : Nat := 0xBE

/-- The second magic byte. -/
def kBEFMagic2 : Nat := 0xF0

/-- Modelled from the spec: the supported format version byte. -/
def kBEFVersion0 : Nat := 0

/-- BEFSections: a vector of kNumSectionIDs raw payload slices. -/
structure BEFSections where
  sections : List (List Nat)

/-- The initial section table: kNumSectionIDs empty slices. -/
def BEFSections.mk0 : BEFSections := ⟨List.replicate kNumSectionIDs []⟩

/-- BEFSections::Get; only ever called with known identifiers. -/
def BEFSections.Get (s : BEFSections) (id : Nat) : List Nat :=
  s.sections.getD id []

/-- BEFSections::Set goes through vector::at, which throws
std::out_of_range when the identifier is not below the vector size. -/
def BEFSections.Set (s : BEFSections) (id : Nat) (d : List Nat) :
    Option BEFSections :=
  if id < s.sections.length then some ⟨s.sections.set id d⟩ else none

/-- BEFToMLIRConverter::ReadHeader: the two magic bytes. -/
def ReadHeader (r : BEFReader) : Option BEFReader :=
  match r.ReadByte with
  | none => none
  | some (b1, r1) =>
    if b1 = kBEFMagic1 then
      match r1.ReadByte with
      | none => none
      | some (b2, r2) => if b2 = kBEFMagic2 then some r2 else none
    else none

/-- BEFToMLIRConverter::ReadNextSection: reads one section and stores
its payload under its identifier; an unknown identifier makes the
vector::at of BEFSections::Set throw. -/
def ReadNextSection (r : BEFReader) (s : BEFSections) :
    Res (BEFReader × BEFSections) :=
  match r.ReadSection with
  | none => .fail
  | some (id, data, r1) =>
    match s.Set id data with
    | some s1 => .ok (r1, s1)
    | none => .thrown

/-- Section loop of ReadSections; every section consumes at least its
id byte, so the fuel passed by the wrapper never runs out. -/
def readSectionsGo : Nat → BEFReader → BEFSections → Res BEFSections
  | 0, _, _ => .thrown
  | fuel + 1, r, s =>
    if r.Empty then .ok s
    else
      match ReadNextSection r s with
      | .fail => .fail
      | .thrown => .thrown
      | .ok (r1, s1) => readSectionsGo fuel r1 s1

/-- BEFToMLIRConverter::ReadSections: splits the whole rest of the file
and then emits one warning when any of the AttributeTypes,
AttributeNames or RegisterTypes sections is empty. -/
def ReadSections (r : BEFReader) : Res BEFSections × List Diag :=
  match readSectionsGo (r.data.length + 1) r BEFSections.mk0 with
  | .fail => (.fail, [])
  | .thrown => (.thrown, [])
  | .ok s =>
    if (s.Get kAttributeTypes).isEmpty ∨ (s.Get kAttributeNames).isEmpty ∨
        (s.Get kRegisterTypes).isEmpty then
      (.ok s,
        [⟨.warning,
          "Missing AttributeTypes, AttributeNames or RegisterTypes sections."⟩])
    else (.ok s, [])

/-- BEFToMLIRConverter::ReadFormatVersion: reads one byte of the
payload and compares it with the supported version; any further
payload bytes are never looked at. -/
def ReadFormatVersion (format_version : List Nat) : Bool :=
  match (BEFReader.mk0 format_version).ReadByte with
  | some (v, _) => v = kBEFVersion0
  | none => false

/-- Splits the leading NUL terminated string off a byte list; none when
no NUL terminator lies strictly inside the data. -/
def splitNul : List Nat → Option (List Nat × List Nat)
  | [] => none
  | 0 :: rest => some ([], rest)
  | b :: rest =>
    match splitNul rest with
    | some (s, r) => some (b :: s, r)
    | none => none

/-- Loop of ReadNullTerminatedStrings, collecting offset and content;
each string consumes at least its terminator, so the wrapper fuel
never runs out. -/
def readNTSGo : Nat → List Nat → Nat → Option (List (Nat × List Nat))
  | 0, _, _ => none
  | fuel + 1, bytes, offset =>
    match bytes with
    | [] => some []
    | _ =>
      match splitNul bytes with
      | none => none
      | some (s, rest) =>
        match readNTSGo fuel rest (offset + s.length + 1) with
        | none => none
        | some xs => some ((offset, s) :: xs)

/-- BEFToMLIRConverter::ReadNullTerminatedStrings. -/
def ReadNullTerminatedStrings (section_data : List Nat) :
    Option (List (Nat × List Nat)) :=
  readNTSGo (section_data.length + 1) section_data 0

/-- BEFToMLIRConverter::ReadLocationFilenames: the filename list in
section order. -/
def ReadLocationFilenames (location_filenames : List Nat) :
    Option (List (List Nat)) :=
  (ReadNullTerminatedStrings location_filenames).map (fun xs => xs.map Prod.snd)

/-- Loop of ReadLocationPositions: record offset, three varints, a
filename index that must resolve, building the offset keyed map. -/
def readLocationPositionsGo (filenames : List (List Nat)) :
    Nat → BEFReader → List (Nat × Loc) → Option (List (Nat × Loc))
  | 0, _, _ => none
  | fuel + 1, r, acc =>
    if r.Empty then some acc
    else
      let offset := r.pos
      match r.ReadInt with
      | none => none
      | some (fidx, r1) =>
        match r1.ReadInt with
        | none => none
        | some (line, r2) =>
          match r2.ReadInt with
          | none => none
          | some (col, r3) =>
            match filenames[fidx]? with
            | none => none
            | some fname =>
              readLocationPositionsGo filenames fuel r3
                (insertNoReplace acc offset (.fileLineCol fname line col))

/-- BEFToMLIRConverter::ReadLocationPositions. -/
def ReadLocationPositions (filenames : List (List Nat))
    (location_positions : List Nat) : Option (List (Nat × Loc)) :=
  readLocationPositionsGo filenames (location_positions.length + 1)
    (BEFReader.mk0 location_positions) []

/-- BEFToMLIRConverter::ReadStrings: offset keyed string map. -/
def ReadStrings (strings : List Nat) : Option (List (Nat × List Nat)) :=
  match ReadNullTerminatedStrings strings with
  | some xs => some (xs.foldl (fun m p => setKV m p.1 p.2) [])
  | none => none

/-- Loop of ReadAttributes over the AttributeTypes records: offset and
descriptor pairs drive the attribute reader; the map built so far is
kept when a varint read fails (the member survives the failure). -/
def readAttributesGo (bef : BEFFile) (attributes : List Nat) :
    Nat → BEFReader → List (Nat × MAttr) →
      Res (Bool × List (Nat × MAttr)) × List Diag
  | 0, _, acc => (.ok (true, acc), [])
  | n + 1, tr, acc =>
    match tr.ReadInt with
    | none => (.ok (false, acc), [])
    | some (offset, tr1) =>
      match tr1.ReadInt with
      | none => (.ok (false, acc), [])
      | some (attribute_type, tr2) =>
        match BEFAttributeReader.ReadAttributeAtOffset ⟨attributes, bef⟩
            attribute_type offset with
        | (.ok a, ds) =>
          match readAttributesGo bef attributes n tr2
              (insertNoReplace acc offset a) with
          | (res, ds2) => (res, ds ++ ds2)
        | (.fail, ds) => (.thrown, ds)
        | (.thrown, ds) => (.thrown, ds)

/-- BEFToMLIRConverter::ReadAttributes: nothing is decoded when the
AttributeTypes section is empty; otherwise the record count and the
records are read, the boolean reporting whether the section was well
formed. -/
def ReadAttributes (bef : BEFFile) (attributes attribute_types : List Nat) :
    Res (Bool × List (Nat × MAttr)) × List Diag :=
  if attribute_types.isEmpty then (.ok (true, []), [])
  else
    match (BEFReader.mk0 attribute_types).ReadInt with
    | none => (.ok (false, []), [])
    | some (num, tr) => readAttributesGo bef attributes num tr []

/-- BEFToMLIRConverter::ReadStringOffsetSection: an offset array whose
every entry must resolve in the string map. -/
def ReadStringOffsetSection (bef : BEFFile) (section_data : List Nat) :
    Option (List (List Nat)) :=
  match ReadIntArray (BEFReader.mk0 section_data) with
  | (none, _) => none
  | (some offsets, _) => offsets.mapM (fun off => bef.GetString off)

/-- BEFToMLIRConverter::ReadKernels: the kernel name pool. -/
def ReadKernels (bef : BEFFile) (kernels : List Nat) :
    Option (List (List Nat)) :=
  ReadStringOffsetSection bef kernels

/-- The external MLIR type parser, abstracted: an empty string fails to
parse, any other string yields the type it names.  The MLIR layer is
outside the decoder core per the spec. -/
def parseTypeM (s : List Nat) : Option MType :=
  if s.isEmpty then none else some (.named (byteStr s))

/-- BEFToMLIRConverter::ReadTypes: each type name string is parsed and
the result (null on parse failure) memoized positionally. -/
def ReadTypes (bef : BEFFile) (types : List Nat) :
    Option (List (Option MType)) :=
  (ReadStringOffsetSection bef types).map (fun strs => strs.map parseTypeM)

/-- Argument or result type list of a function index entry: a varint
index array, every index resolving to a non null type. -/
def readFunctionTypes (bef : BEFFile) (r : BEFReader) :
    Option (List MType × BEFReader) :=
  match ReadIntArray r with
  | (none, _) => none
  | (some indices, r1) =>
    match indices.mapM (fun ti => bef.GetType ti) with
    | none => none
    | some tys => some (tys, r1)

/-- Loop of ReadFunctionIndex: kind byte, function offset, name offset
(whose string is taken through getValue and so must exist), then the
two type lists. -/
def readFunctionIndexGo (bef : BEFFile) :
    Nat → BEFReader → Res (List BEFFunction)
  | 0, _ => .ok []
  | n + 1, r =>
    match r.ReadByte with
    | none => .fail
    | some (kind, r1) =>
      match r1.ReadInt with
      | none => .fail
      | some (function_offset, r2) =>
        match r2.ReadInt with
        | none => .fail
        | some (name_offset, r3) =>
          match bef.GetString name_offset with
          | none => .thrown
          | some name =>
            match readFunctionTypes bef r3 with
            | none => .fail
            | some (argTys, r4) =>
              match readFunctionTypes bef r4 with
              | none => .fail
              | some (resTys, r5) =>
                match readFunctionIndexGo bef n r5 with
                | .ok fs =>
                  .ok (⟨function_offset, name, FunctionKind.ofByte kind,
                    argTys, resTys⟩ :: fs)
                | .fail => .fail
                | .thrown => .thrown

/-- BEFToMLIRConverter::ReadFunctionIndex. -/
def ReadFunctionIndex (bef : BEFFile) (function_index : List Nat) :
    Res (List BEFFunction) :=
  match (BEFReader.mk0 function_index).ReadInt with
  | none => .fail
  | some (n, r) => readFunctionIndexGo bef n r

/-- Function loop of ReadFunctions: native entries get an empty region
slot; BEF entries are decoded by the function reader, the
AttributeNames and RegisterTypes readers threading through, and the
deferred region references are tagged with the function position. -/
def readFunctionsGo (bef : BEFFile) (functions : List Nat) :
    List BEFFunction → Nat → BEFReader → BEFReader →
      Res (List (Loc × Option MRegion) × List ((Nat × Nat) × List Nat)) ×
        List Diag
  | [], _, _, _ => (.ok ([], []), [])
  | bf :: rest, fIdx, anames, rtypes =>
    if bf.IsNativeFunction then
      match readFunctionsGo bef functions rest (fIdx + 1) anames rtypes with
      | (.ok (rs, refs), ds) => (.ok ((Loc.unknownLoc, none) :: rs, refs), ds)
      | (.fail, ds) => (.fail, ds)
      | (.thrown, ds) => (.thrown, ds)
    else
      match BEFFunctionReader.ReadFunction bef
          (functions.drop bf.function_offset) bf anames rtypes with
      | (.ok ((loc, region), an1, rt1, refs), ds) =>
        match readFunctionsGo bef functions rest (fIdx + 1) an1 rt1 with
        | (.ok (rs, refs2), ds2) =>
          (.ok ((loc, some region) :: rs,
            refs.map (fun p => ((fIdx, p.1), p.2)) ++ refs2), ds ++ ds2)
        | (.fail, ds2) => (.fail, ds ++ ds2)
        | (.thrown, ds2) => (.thrown, ds ++ ds2)
      | (.fail, ds) => (.fail, ds)
      | (.thrown, ds) => (.thrown, ds)

/-- BEFToMLIRConverter::ReadFunctions: when the AttributeNames or
RegisterTypes streams are nonempty their leading table count is read
and discarded, then every function index entry is processed. -/
def ReadFunctions (bef : BEFFile)
    (functions attribute_names register_types : List Nat) :
    Res (List (Loc × Option MRegion) × List ((Nat × Nat) × List Nat)) ×
      List Diag :=
  let an0 := BEFReader.mk0 attribute_names
  let an1 :=
    if an0.Empty then an0
    else
      match an0.ReadInt with
      | some (_, a) => a
      | none => an0
  let rt0 := BEFReader.mk0 register_types
  let rt1 :=
    if rt0.Empty then rt0
    else
      match rt0.ReadInt with
      | some (_, a) => a
      | none => rt0
  readFunctionsGo bef functions bef.function_index 0 an1 rt1

/-- BEFToMLIRConverter::CreateBEFFuncOp: the result types of the
created function are the operand types of the trailing return
operation of the region, not the declared result type handles; back()
on an empty block aborts. -/
def CreateBEFFuncOp (location : Loc) (bf : BEFFunction) (region : MRegion) :
    Res FuncOp :=
  match region.ops.getLast? with
  | none => .thrown
  | some return_op =>
    .ok { name := byteStr bf.name, loc := location,
          argTypes := bf.argument_types,
          resTypes := return_op.operands.map (fun v => v.ty),
          native := false, body := some region }

/-- BEFToMLIRConverter::CreateNativeFuncOp: an external function whose
type comes entirely from the declared handles, marked hex.native. -/
def CreateNativeFuncOp (location : Loc) (bf : BEFFunction) : FuncOp :=
  { name := byteStr bf.name, loc := location, argTypes := bf.argument_types,
    resTypes := bf.result_types, native := true, body := none }

/-- Pass 1 of ResolveFunctions: every named function is attached to the
module in index order, moving its region out of the slot; the asserts
on the slot state abort when violated. -/
def pass1Go (bef : BEFFile) :
    List BEFFunction → Nat → List (Loc × Option MRegion) → List FuncOp →
      Res (List FuncOp × List (Loc × Option MRegion))
  | [], _, regions, funcs => .ok (funcs, regions)
  | bf :: rest, i, regions, funcs =>
    if bf.IsNamedFunction then
      match regions[i]? with
      | none => .thrown
      | some (loc, slot) =>
        if bf.IsNativeFunction then
          if slot.isSome then .thrown
          else pass1Go bef rest (i + 1) regions
            (funcs ++ [CreateNativeFuncOp loc bf])
        else
          match slot with
          | none => .thrown
          | some region =>
            match CreateBEFFuncOp loc bf region with
            | .ok f => pass1Go bef rest (i + 1) (regions.set i (loc, none))
                (funcs ++ [f])
            | .fail => .fail
            | .thrown => .thrown
    else pass1Go bef rest (i + 1) regions funcs

/-- Region moves for one deferred reference: slot i of the operation
receives the region of the function at index i of the list, in order;
an empty source slot (a region already moved) or an out of range index
aborts, and each moved slot is emptied. -/
def takeRegions :
    List (Loc × Option MRegion) → List Nat →
      Res (List MRegion × List (Loc × Option MRegion))
  | regions, [] => .ok ([], regions)
  | regions, j :: rest =>
    match regions[j]? with
    | none => .thrown
    | some (loc, slot) =>
      match slot with
      | none => .thrown
      | some region =>
        match takeRegions (regions.set j (loc, none)) rest with
        | .ok (rs, regions2) => .ok (region :: rs, regions2)
        | .fail => .fail
        | .thrown => .thrown

/-- Pass 2 of ResolveFunctions over the deferred references. -/
def pass2Go :
    List ((Nat × Nat) × List Nat) → List (Loc × Option MRegion) →
      List ((Nat × Nat) × List MRegion) →
      Res (List ((Nat × Nat) × List MRegion) × List (Loc × Option MRegion))
  | [], regions, acc => .ok (acc, regions)
  | (opId, idxs) :: rest, regions, acc =>
    match takeRegions regions idxs with
    | .thrown => .thrown
    | .fail => .fail
    | .ok (rs, regions1) => pass2Go rest regions1 (acc ++ [(opId, rs)])

/-- BEFToMLIRConverter::ResolveFunctions: pass 1 emits the named
functions, pass 2 moves the nested regions into their operations, and
a region slot still holding a region afterwards is a fatal error. -/
def ResolveFunctions (bef : BEFFile) (regions : List (Loc × Option MRegion))
    (refs : List ((Nat × Nat) × List Nat)) :
    Res (List FuncOp × List ((Nat × Nat) × List MRegion) ×
      List (Loc × Option MRegion)) × List Diag :=
  match pass1Go bef bef.function_index 0 regions [] with
  | .thrown => (.thrown, [])
  | .fail => (.fail, [])
  | .ok (funcs, regions1) =>
    match pass2Go refs regions1 [] with
    | .thrown => (.thrown, [])
    | .fail => (.fail, [])
    | .ok (assigns, regions2) =>
      if regions2.any (fun p => p.2.isSome) then
        (.fail, [⟨.error, "Failed to resolve functions."⟩])
      else (.ok (funcs, assigns, regions2), [])

end BEFToMLIRConverter

/-- ConvertBEFToMLIR: the three phase pipeline.  A clean failure
returns no module after emitting the stage error; a failed
ReadAttributes only downgrades to a warning and the decode continues. -/
def ConvertBEFToMLIR (bytes : List Nat) : Res (List FuncOp) × List Diag :=
  match BEFToMLIRConverter.ReadHeader (BEFReader.mk0 bytes) with
  | none => (.fail, [⟨.error, "Invalid BEF file header."⟩])
  | some r1 =>
    match BEFToMLIRConverter.ReadSections r1 with
    | (.fail, ds) => (.fail, ds ++ [⟨.error, "Invalid BEF section header."⟩])
    | (.thrown, ds) => (.thrown, ds)
    | (.ok sections, ds0) =>
      if ¬BEFToMLIRConverter.ReadFormatVersion
          (sections.Get BEFToMLIRConverter.kFormatVersion) then
        (.fail, ds0 ++ [⟨.error, "Invalid BEF version."⟩])
      else
        match BEFToMLIRConverter.ReadLocationFilenames
            (sections.Get BEFToMLIRConverter.kLocationFilenames) with
        | none =>
          (.fail, ds0 ++ [⟨.error, "Invalid LocationFilenames section."⟩])
        | some filenames =>
          match BEFToMLIRConverter.ReadLocationPositions filenames
              (sections.Get BEFToMLIRConverter.kLocationPositions) with
          | none =>
            (.fail, ds0 ++ [⟨.error, "Invalid LocationPositions section."⟩])
          | some locpos =>
            match BEFToMLIRConverter.ReadStrings
                (sections.Get BEFToMLIRConverter.kStrings) with
            | none => (.fail, ds0 ++ [⟨.error, "Invalid Strings section."⟩])
            | some strings =>
              match BEFToMLIRConverter.ReadTypes
                  ⟨filenames, locpos, strings, [], [], [], []⟩
                  (sections.Get BEFToMLIRConverter.kTypes) with
              | none => (.fail, ds0 ++ [⟨.error, "Invalid Types section."⟩])
              | some types =>
                match BEFToMLIRConverter.ReadAttributes
                    ⟨filenames, locpos, strings, [], [], types, []⟩
                    (sections.Get BEFToMLIRConverter.kAttributes)
                    (sections.Get BEFToMLIRConverter.kAttributeTypes) with
                | (.fail, ds1) => (.thrown, ds0 ++ ds1)
                | (.thrown, ds1) => (.thrown, ds0 ++ ds1)
                | (.ok (attrsOk, attrs), ds1) =>
                  match BEFToMLIRConverter.ReadKernels
                      ⟨filenames, locpos, strings, attrs, [], types, []⟩
                      (sections.Get BEFToMLIRConverter.kKernels) with
                  | none =>
                    (.fail, ds0 ++ ds1 ++
                      (if attrsOk then []
                       else [⟨.warning,
                         "Invalid Attributes/AttributeTypes section."⟩]) ++
                      [⟨.error, "Invalid Kernels section."⟩])
                  | some kernels =>
                    match BEFToMLIRConverter.ReadFunctionIndex
                        ⟨filenames, locpos, strings, attrs, kernels, types, []⟩
                        (sections.Get BEFToMLIRConverter.kFunctionIndex) with
                    | .fail =>
                      (.fail, ds0 ++ ds1 ++
                        (if attrsOk then []
                         else [⟨.warning,
                           "Invalid Attributes/AttributeTypes section."⟩]) ++
                        [⟨.error, "Invalid FunctionIndex section."⟩])
                    | .thrown =>
                      (.thrown, ds0 ++ ds1 ++
                        (if attrsOk then []
                         else [⟨.warning,
                           "Invalid Attributes/AttributeTypes section."⟩]))
                    | .ok fidx =>
                      match BEFToMLIRConverter.ReadFunctions
                          ⟨filenames, locpos, strings, attrs, kernels, types,
                            fidx⟩
                          (sections.Get BEFToMLIRConverter.kFunctions)
                          (sections.Get BEFToMLIRConverter.kAttributeNames)
                          (sections.Get BEFToMLIRConverter.kRegisterTypes) with
                      | (.fail, ds2) =>
                        (.fail, ds0 ++ ds1 ++
                          (if attrsOk then []
                           else [⟨.warning,
                             "Invalid Attributes/AttributeTypes section."⟩]) ++
                          ds2 ++ [⟨.error, "Invalid Functions section."⟩])
                      | (.thrown, ds2) =>
                        (.thrown, ds0 ++ ds1 ++
                          (if attrsOk then []
                           else [⟨.warning,
                             "Invalid Attributes/AttributeTypes section."⟩]) ++
                          ds2)
                      | (.ok (regions, refs), ds2) =>
                        match BEFToMLIRConverter.ResolveFunctions
                            ⟨filenames, locpos, strings, attrs, kernels, types,
                              fidx⟩
                            regions refs with
                        | (.fail, ds3) =>
                          (.fail, ds0 ++ ds1 ++
                            (if attrsOk then []
                             else [⟨.warning,
                               "Invalid Attributes/AttributeTypes section."⟩]) ++
                            ds2 ++ ds3 ++
                            [⟨.error, "Failed to resolve functions."⟩])
                        | (.thrown, ds3) =>
                          (.thrown, ds0 ++ ds1 ++
                            (if attrsOk then []
                             else [⟨.warning,
                               "Invalid Attributes/AttributeTypes section."⟩]) ++
                            ds2 ++ ds3)
                        | (.ok (funcs, _, _), ds3) =>
                          (.ok funcs, ds0 ++ ds1 ++
                            (if attrsOk then []
                             else [⟨.warning,
                               "Invalid Attributes/AttributeTypes section."⟩]) ++
                            ds2 ++ ds3)

/-- A BEF file whose FormatVersion section payload holds the two bytes
0 and 7: version byte 0 followed by a stray byte. -/
def twoByteVersionInput : List Nat :=
  [0xBE, 0xF0, 0, 2, 0, 7, 6, 1, 0, 5, 1, 0, 8, 1, 0]

/-- The section table produced for twoByteVersionInput. -/
def twoByteVersionSections : BEFToMLIRConverter.BEFSections :=
  ⟨[[0, 7], [], [], [], [], [0], [0], [], [0], [], [], []]⟩

/-- The same container with a bad version byte 5. -/
def badVersionInput : List Nat :=
  [0xBE, 0xF0, 0, 1, 5, 6, 1, 0, 5, 1, 0, 8, 1, 0]

/-- The section table produced for badVersionInput. -/
def badVersionSections : BEFToMLIRConverter.BEFSections :=
  ⟨[[5], [], [], [], [], [0], [0], [], [0], [], [], []]⟩

/-- A BEF file containing one section with the unknown identifier 12,
the first value outside the known set. -/
def unknownSectionInput : List Nat := [0xBE, 0xF0, 12, 0]

/-- The same file with the known identifier 11 in place of 12. -/
def knownSectionInput : List Nat := [0xBE, 0xF0, 11, 0]

/-- A BEF file whose AttributeTypes section payload is the single byte
0x80: a truncated varint count, so the section is malformed. -/
def malformedAttributeTypesInput : List Nat :=
  [0xBE, 0xF0, 0, 1, 0, 6, 1, 0, 9, 1, 128, 5, 1, 0, 8, 1, 0]

/-- The synthesized attribute names attr0, attr1, ... starting at
index i: the fallback names of the kernel attribute loop. -/
def synthNames (i : Nat) : Nat → List String
  | 0 => []
  | n + 1 => ("attr" ++ toString i) :: synthNames (i + 1) n

/-- A BEFFile with one kernel name k and one location, no decoded
attributes. -/
def bef4c : BEFFile :=
  ⟨[], [(0, Loc.fileLineCol [102] 1 2)], [], [], [[107]], [], []⟩

/-- A kernel entry with one attribute whose pool offset 99 is not in
the decoded attribute map. -/
def kernelWords4c : List Nat := [0, 0, 0, 1, 0, 0, 99]

/-- A kernel entry with one operand reading register 0. -/
def kernelWords4u : List Nat := [0, 0, 1, 0, 0, 0, 0]

/-- The substitution the attribute loop applies: the decoded attribute
when the map holds one, the placeholder 32 bit integer 0xdeadbeef
otherwise. -/
def attrOrPlaceholder (bef : BEFFile) (off : Nat) : MAttr :=
  match bef.GetAttribute off with
  | .null => MAttr.int 32 3735928559
  | a => a

/-- Replaces the declared use count of a register by 0, leaving type,
usedbys and value unchanged: two register tables equal after this map
differ at most in their declared use counts. -/
def eraseUses (r : RegisterInfo) : RegisterInfo := { r with num_uses := 0 }

/-- Applies eraseUses to the register table inside a ReadKernel
result, leaving everything else unchanged. -/
def eraseKernelRes :
    Res (Op × List RegisterInfo × BEFReader × Option (List Nat)) × List Diag →
      Res (Op × List RegisterInfo × BEFReader × Option (List Nat)) × List Diag
  | (.ok (op, regs1, an1, refs), ds) =>
    (.ok (op, regs1.map eraseUses, an1, refs), ds)
  | (.fail, ds) => (.fail, ds)
  | (.thrown, ds) => (.thrown, ds)

/-- The messages the pipeline emits when a stage is fatal. -/
def fatalStageMessages : List String :=
  ["Invalid BEF file header.", "Invalid BEF section header.",
   "Invalid BEF version.", "Invalid LocationFilenames section.",
   "Invalid LocationPositions section.", "Invalid Strings section.",
   "Invalid Types section.", "Invalid Kernels section.",
   "Invalid FunctionIndex section.", "Invalid Functions section.",
   "Failed to resolve functions."]

/-- The location used by the use count fixtures. -/
def loc5c : Loc := Loc.fileLineCol [102] 1 2

/-- A BEFFile with one kernel name k and one location at offset 0. -/
def bef5c : BEFFile :=
  ⟨[], [(0, loc5c)], [], [], [[107]], [], []⟩

/-- Two kernel entries: the first (8 words, starting at byte offset 0)
defines register 0 as its single result and declares one used-by; the
second (starting at byte offset 32) reads register 0 as its single
argument.  Register 0 is therefore used at exactly one operand
position. -/
def words5c : List Nat :=
  [0, 0, 0, 0, 0, 1, 1, 0] ++ [0, 0, 1, 0, 0, 0, 0]

/-- The kernel table of the two kernels of words5c. -/
def ktable5c : List KernelTableEntry := [⟨0, 4⟩, ⟨32, 4⟩]

/-- One register whose declared use count 5 differs from the single
actual use in words5c. -/
def regs5c : List RegisterInfo := [⟨MType.noneT, 5, [], none⟩]


/-- Availability of a value before the operation at position n of a
block: a block argument is always available, the result of operation j
only when j comes earlier. -/
def Value.before (n : Nat) : Value → Bool
  | .arg _ => true
  | .res j _ => decide (j < n)

/-- Every value stored in the register table is available before
position n. -/
def regsBefore (n : Nat) (regs : List RegisterInfo) : Prop :=
  ∀ r ∈ regs, ∀ t, r.value = some t → Value.before n t.val = true


/-- The shape of a successful pass 2: the deferred references are
processed in list order, each one moving the regions named by its
index list out of the current region table with takeRegions, and the
final table is the one left after the last reference. -/
def chainOk : List (Loc × Option MRegion) → List ((Nat × Nat) × List Nat) →
    List ((Nat × Nat) × List MRegion) → List (Loc × Option MRegion) → Prop
  | regions, [], assigns, regions2 => assigns = [] ∧ regions2 = regions
  | regions, (opId, idxs) :: rest, assigns, regions2 =>
    ∃ rs regions1 assignsRest,
      BEFToMLIRConverter.takeRegions regions idxs = .ok (rs, regions1) ∧
      assigns = (opId, rs) :: assignsRest ∧
      chainOk regions1 rest assignsRest regions2

/-- A region with no block arguments and no operations. -/
def regionA : MRegion := ⟨[], []⟩

/-- A region with one block argument. -/
def regionB : MRegion := ⟨[MType.noneT], []⟩

/-- Two region slots, both still holding their region. -/
def regions3c : List (Loc × Option MRegion) :=
  [(Loc.origin, some regionA), (Loc.origin, some regionB)]


/-- The section table produced for malformedAttributeTypesInput. -/
def malformedAttributeTypesSections : BEFToMLIRConverter.BEFSections :=
  ⟨[[0], [], [], [], [], [0], [0], [], [0], [128], [], []]⟩

lemma ReadLengthGo_stop (attributes : List Nat) (p v : Nat)
    (h : attributes.getD p 0 / 128 % 2 = 0) :
    BEFAttributeReader.ReadLengthGo attributes p v =
      some (v * 128 + attributes.getD p 0 % 128) := by
  cases p with
  | zero =>
    simp only [BEFAttributeReader.ReadLengthGo]
    rw [h]
    norm_num
  | succ o =>
    simp only [BEFAttributeReader.ReadLengthGo]
    rw [h]
    norm_num

lemma ReadLengthGo_cont (attributes : List Nat) (o v : Nat)
    (h : attributes.getD (o + 1) 0 / 128 % 2 = 1) :
    BEFAttributeReader.ReadLengthGo attributes (o + 1) v =
      BEFAttributeReader.ReadLengthGo attributes o
        (v * 128 + attributes.getD (o + 1) 0 % 128) := by
  simp only [BEFAttributeReader.ReadLengthGo]
  rw [h]
  norm_num

lemma ReadLengthGo_run (attributes : List Nat) (p : Nat) :
    ∀ k v, (∀ i, p < i → i ≤ p + k → attributes.getD i 0 / 128 % 2 = 1) →
    attributes.getD p 0 / 128 % 2 = 0 →
    BEFAttributeReader.ReadLengthGo attributes (p + k) v =
      some (v * 128 ^ (k + 1) + revVbrValue attributes p (k + 1)) := by
  intro k
  induction k with
  | zero =>
    intro v _ hstop
    rw [Nat.add_zero, ReadLengthGo_stop attributes p v hstop]
    congr 1
    simp only [revVbrValue, pow_zero, pow_one, Nat.add_zero]
    ring
  | succ k ih =>
    intro v hcont hstop
    have hbit : attributes.getD ((p + k) + 1) 0 / 128 % 2 = 1 := by
      apply hcont (p + k + 1) (by omega) (by omega)
    rw [show p + (k + 1) = (p + k) + 1 from rfl,
        ReadLengthGo_cont attributes (p + k) v hbit,
        ih (v * 128 + attributes.getD ((p + k) + 1) 0 % 128)
          (fun i h1 h2 => hcont i h1 (by omega)) hstop]
    congr 1
    rw [show revVbrValue attributes p (k + 1 + 1) =
        revVbrValue attributes p (k + 1) +
          (attributes.getD (p + (k + 1)) 0 % 128) * 128 ^ (k + 1) from rfl,
        show p + (k + 1) = (p + k) + 1 from rfl]
    ring

/-- C2.  The claim states the final byte read (high bit clear, smallest
address) contributes the most significant bits.  In the source it is
the opposite: the byte at offset - 1, read first, is shifted left by 7
for every further byte, so it ends up most significant, and the final
byte read contributes the least significant 7 bits.  Amended statement:
for a well formed run whose terminating byte (high bit clear) sits at
address p and whose bytes at addresses p+1 .. offset-1 all have their
high bit set, ReadLength returns the value in which the byte at address
p + j carries weight 128 ^ j, i.e. the final byte read is least
significant. -/
theorem claim2_amended (attributes : List Nat) (p offset : Nat)
    (hp : p < offset)
    (hcont : ∀ i, p < i → i < offset → attributes.getD i 0 / 128 % 2 = 1)
    (hstop : attributes.getD p 0 / 128 % 2 = 0) :
    BEFAttributeReader.ReadLength attributes offset =
      some (revVbrValue attributes p (offset - p)) := by
  obtain ⟨o, rfl⟩ : ∃ o, offset = o + 1 := ⟨offset - 1, by omega⟩
  have run := ReadLengthGo_run attributes p (o - p) 0
    (fun i h1 h2 => hcont i h1 (by omega)) hstop
  rw [show p + (o - p) = o from by omega] at run
  rw [show BEFAttributeReader.ReadLength attributes (o + 1) =
      BEFAttributeReader.ReadLengthGo attributes o 0 from rfl, run,
      show o + 1 - p = (o - p) + 1 from by omega]
  simp

/-- C2 witness: the two byte run 0x01 0x82 before offset 2 decodes to
257 = 2 * 128 + 1, with the byte at offset - 1 most significant. -/
theorem claim2_witness :
    (0 : Nat) < 2 ∧
    BEFAttributeReader.ReadLength [1, 130] 2 = some (revVbrValue [1, 130] 0 2) :=
  ⟨by decide,
   claim2_amended [1, 130] 0 2 (by decide)
     (by
       intro i h1 h2
       have : i = 1 := by omega
       subst this
       decide)
     (by decide)⟩

/-- C2 counterexample: on the run 0x01 0x82 read at offset 2 the source
returns 257 (first byte read most significant), while the claim, which
makes the final byte read most significant, would give 130; the two
differ, so the claim as stated is false at this input. -/
theorem claim2_counterexample :
    BEFAttributeReader.ReadLength [1, 130] 2 = some 257 ∧
    claimedMsbFinalLength [1, 130] 2 = some 130 ∧ (257 : Nat) ≠ 130 := by
  refine ⟨by decide, by decide, by decide⟩

lemma ReadHeader_mismatch (b1 b2 : Nat) (rest : List Nat)
    (h : b1 ≠ BEFToMLIRConverter.kBEFMagic1 ∨ b2 ≠ BEFToMLIRConverter.kBEFMagic2) :
    BEFToMLIRConverter.ReadHeader (BEFReader.mk0 (b1 :: b2 :: rest)) = none := by
  by_cases hb1 : b1 = BEFToMLIRConverter.kBEFMagic1
  · have hb2 : b2 ≠ BEFToMLIRConverter.kBEFMagic2 := by
      rcases h with h | h
      · exact absurd hb1 h
      · exact h
    simp [BEFToMLIRConverter.ReadHeader, BEFReader.ReadByte, BEFReader.mk0,
      BEFReader.file, hb1, hb2]
  · simp [BEFToMLIRConverter.ReadHeader, BEFReader.ReadByte, BEFReader.mk0,
      BEFReader.file, hb1]

/-- C9.  The magic check and the version check are as claimed: a wrong
byte in either of the first two positions makes the decode fail with
no module, and a FormatVersion payload whose first byte differs from
the supported version is fatal.  The final clause of the claim is
amended: the decoder reads exactly one byte of the FormatVersion
payload and never looks at the rest, so a payload of more than one
byte whose first byte is the supported version is accepted; only an
empty payload or a wrong first byte fails. -/
theorem claim9_amended :
    (∀ b1 b2 rest, b1 ≠ BEFToMLIRConverter.kBEFMagic1 ∨
        b2 ≠ BEFToMLIRConverter.kBEFMagic2 →
      (ConvertBEFToMLIR (b1 :: b2 :: rest)).1 = Res.fail) ∧
    (∀ v rest, BEFToMLIRConverter.ReadFormatVersion (v :: rest) =
      decide (v = BEFToMLIRConverter.kBEFVersion0)) ∧
    (BEFToMLIRConverter.ReadFormatVersion [] = false) ∧
    (∀ bytes r s ds, BEFToMLIRConverter.ReadHeader (BEFReader.mk0 bytes) = some r →
      BEFToMLIRConverter.ReadSections r = (Res.ok s, ds) →
      BEFToMLIRConverter.ReadFormatVersion
        (s.Get BEFToMLIRConverter.kFormatVersion) = false →
      (ConvertBEFToMLIR bytes).1 = Res.fail) := by
  refine ⟨?_, ?_, ?_, ?_⟩
  · intro b1 b2 rest h
    unfold ConvertBEFToMLIR
    rw [ReadHeader_mismatch b1 b2 rest h]
  · intro v rest
    simp [BEFToMLIRConverter.ReadFormatVersion, BEFReader.ReadByte,
      BEFReader.mk0, BEFReader.file]
  · rfl
  · intro bytes r s ds h1 h2 h3
    unfold ConvertBEFToMLIR
    rw [h1]
    simp [h2, h3]

/-- C9 witness: a wrong first magic byte fails; the two byte payload
0, 7 passes the version check because only its first byte is read; the
concrete container with version byte 5 fails. -/
theorem claim9_witness :
    (ConvertBEFToMLIR [0xBD, 0xF0]).1 = Res.fail ∧
    BEFToMLIRConverter.ReadFormatVersion [0, 7] =
      decide ((0 : Nat) = BEFToMLIRConverter.kBEFVersion0) ∧
    (ConvertBEFToMLIR badVersionInput).1 = Res.fail :=
  ⟨claim9_amended.1 0xBD 0xF0 [] (Or.inl (by decide)),
   claim9_amended.2.1 0 [7],
   claim9_amended.2.2.2 badVersionInput ⟨badVersionInput, 2⟩ badVersionSections
     [⟨Sev.warning,
       "Missing AttributeTypes, AttributeNames or RegisterTypes sections."⟩]
     rfl rfl rfl⟩

/-- C9 counterexample to the clause that the FormatVersion payload
consists of exactly one byte: this container carries a two byte
FormatVersion payload and still decodes to a module. -/
theorem claim9_counterexample :
    BEFToMLIRConverter.ReadSections ⟨twoByteVersionInput, 2⟩ =
      (Res.ok twoByteVersionSections,
       [⟨Sev.warning,
         "Missing AttributeTypes, AttributeNames or RegisterTypes sections."⟩]) ∧
    twoByteVersionSections.Get BEFToMLIRConverter.kFormatVersion = [0, 7] ∧
    ([0, 7] : List Nat).length ≠ 1 ∧
    (ConvertBEFToMLIR twoByteVersionInput).1 = Res.ok [] :=
  ⟨rfl, rfl, by decide, rfl⟩

/-- C6.  The claim says a section with an unknown identifier is
skipped and never causes the decode to fail, matching the source
comment that unrecognized sections are dropped silently.  The code
disagrees with its own comment: BEFSections::Set stores through
vector::at, sized to the known identifiers, so an unknown identifier
throws std::out_of_range and the decode aborts with no module and no
diagnostic.  The same container with a known identifier in place of
the unknown one proceeds normally. -/
theorem claim6_code_bug :
    ConvertBEFToMLIR unknownSectionInput = (Res.thrown, []) ∧
    BEFToMLIRConverter.BEFSections.Set BEFToMLIRConverter.BEFSections.mk0
      12 [] = none ∧
    ConvertBEFToMLIR knownSectionInput =
      (Res.fail,
       [⟨Sev.warning,
         "Missing AttributeTypes, AttributeNames or RegisterTypes sections."⟩,
        ⟨Sev.error, "Invalid BEF version."⟩]) :=
  ⟨rfl, rfl, rfl⟩

/-- C7 counterexample: the AttributeTypes payload 0x80 is a truncated
varint count, so ReadAttributes reports the section malformed, yet the
decode of the whole container still produces a module, downgrading the
malformation to a warning instead of aborting. -/
theorem claim7_counterexample :
    (BEFToMLIRConverter.ReadAttributes BEFFile.empty [] [128]).1 =
      Res.ok (false, []) ∧
    ConvertBEFToMLIR malformedAttributeTypesInput =
      (Res.ok [],
       [⟨Sev.warning,
         "Missing AttributeTypes, AttributeNames or RegisterTypes sections."⟩,
        ⟨Sev.warning, "Invalid Attributes/AttributeTypes section."⟩]) :=
  ⟨rfl, rfl⟩

/-- C7.  Amended: a malformed section is fatal at its stage for every
driver checked section except the Attributes/AttributeTypes pair.
Whenever the decode fails cleanly, its last diagnostic is an error
drawn from the fatal stage messages, a set that does not contain the
Attributes/AttributeTypes message; and when every other stage succeeds
but ReadAttributes reports its sections malformed, the decode emits
the Attributes/AttributeTypes warning and still produces the module. -/
theorem claim7_amended :
    (∀ bytes ds, ConvertBEFToMLIR bytes = (Res.fail, ds) →
      ∃ pre d, ds = pre ++ [d] ∧ d.sev = Sev.error ∧
        d.msg ∈ fatalStageMessages) ∧
    ("Invalid Attributes/AttributeTypes section." ∉ fatalStageMessages) ∧
    (∀ bytes r s ds0 filenames locpos strings types attrs ds1 kernels fidx
        regions refs ds2 funcs assigns regions2 ds3,
      BEFToMLIRConverter.ReadHeader (BEFReader.mk0 bytes) = some r →
      BEFToMLIRConverter.ReadSections r = (Res.ok s, ds0) →
      BEFToMLIRConverter.ReadFormatVersion
        (s.Get BEFToMLIRConverter.kFormatVersion) = true →
      BEFToMLIRConverter.ReadLocationFilenames
        (s.Get BEFToMLIRConverter.kLocationFilenames) = some filenames →
      BEFToMLIRConverter.ReadLocationPositions filenames
        (s.Get BEFToMLIRConverter.kLocationPositions) = some locpos →
      BEFToMLIRConverter.ReadStrings
        (s.Get BEFToMLIRConverter.kStrings) = some strings →
      BEFToMLIRConverter.ReadTypes
        ⟨filenames, locpos, strings, [], [], [], []⟩
        (s.Get BEFToMLIRConverter.kTypes) = some types →
      BEFToMLIRConverter.ReadAttributes
        ⟨filenames, locpos, strings, [], [], types, []⟩
        (s.Get BEFToMLIRConverter.kAttributes)
        (s.Get BEFToMLIRConverter.kAttributeTypes) =
          (Res.ok (false, attrs), ds1) →
      BEFToMLIRConverter.ReadKernels
        ⟨filenames, locpos, strings, attrs, [], types, []⟩
        (s.Get BEFToMLIRConverter.kKernels) = some kernels →
      BEFToMLIRConverter.ReadFunctionIndex
        ⟨filenames, locpos, strings, attrs, kernels, types, []⟩
        (s.Get BEFToMLIRConverter.kFunctionIndex) = Res.ok fidx →
      BEFToMLIRConverter.ReadFunctions
        ⟨filenames, locpos, strings, attrs, kernels, types, fidx⟩
        (s.Get BEFToMLIRConverter.kFunctions)
        (s.Get BEFToMLIRConverter.kAttributeNames)
        (s.Get BEFToMLIRConverter.kRegisterTypes) =
          (Res.ok (regions, refs), ds2) →
      BEFToMLIRConverter.ResolveFunctions
        ⟨filenames, locpos, strings, attrs, kernels, types, fidx⟩
        regions refs = (Res.ok (funcs, assigns, regions2), ds3) →
      ConvertBEFToMLIR bytes =
        (Res.ok funcs, ds0 ++ ds1 ++
          [⟨Sev.warning, "Invalid Attributes/AttributeTypes section."⟩] ++
          ds2 ++ ds3)) := by
  refine ⟨?_, by decide, ?_⟩
  · intro bytes ds h
    unfold ConvertBEFToMLIR at h
    repeat' split at h
    all_goals
      injection h with h1 h2
    all_goals
      first
      | exact Res.noConfusion h1
      | (subst h2
         try simp only [← List.append_assoc]
         refine ⟨_, _, rfl, rfl, ?_⟩
         decide)
      | (subst h2
         refine ⟨[], _, rfl, rfl, ?_⟩
         decide)
  · intro bytes r s ds0 filenames locpos strings types attrs ds1 kernels fidx
      regions refs ds2 funcs assigns regions2 ds3
      h1 h2 h3 h4 h5 h6 h7 h8 h9 h10 h11 h12
    unfold ConvertBEFToMLIR
    rw [h1]
    simp [h2, h3, h4, h5, h6, h7, h8, h9, h10, h11, h12]

/-- C7 witness: the empty input fails with the header error, which is
in the fatal set; and for the container with the truncated
AttributeTypes count every other stage succeeds concretely, so the
pipeline yields the empty module with the downgraded warning. -/
theorem claim7_witness :
    (∃ pre d,
      [(⟨Sev.error, "Invalid BEF file header."⟩ : Diag)] = pre ++ [d] ∧
      d.sev = Sev.error ∧ d.msg ∈ fatalStageMessages) ∧
    ConvertBEFToMLIR malformedAttributeTypesInput =
      (Res.ok [],
        [⟨Sev.warning,
          "Missing AttributeTypes, AttributeNames or RegisterTypes sections."⟩]
          ++ [] ++
          [⟨Sev.warning, "Invalid Attributes/AttributeTypes section."⟩] ++
          [] ++ []) :=
  ⟨claim7_amended.1 [] [⟨Sev.error, "Invalid BEF file header."⟩] rfl,
   claim7_amended.2.2 malformedAttributeTypesInput
     ⟨malformedAttributeTypesInput, 2⟩ malformedAttributeTypesSections
     [⟨Sev.warning,
       "Missing AttributeTypes, AttributeNames or RegisterTypes sections."⟩]
     [] [] [] [] [] [] [] [] [] [] [] [] [] [] []
     rfl rfl rfl rfl rfl rfl rfl rfl rfl rfl rfl rfl⟩

lemma readResultRegsGo_length :
    ∀ n r vs r2, BEFFunctionReader.readResultRegsGo r n = some (vs, r2) →
      vs.length = n := by
  intro n
  induction n with
  | zero =>
    intro r vs r2 h
    simp [BEFFunctionReader.readResultRegsGo] at h
    simp [h.1.symm]
  | succ n ih =>
    intro r vs r2 h
    cases h1 : r.ReadInt with
    | none => simp [BEFFunctionReader.readResultRegsGo, h1] at h
    | some p =>
      obtain ⟨v, r1⟩ := p
      cases h2 : BEFFunctionReader.readResultRegsGo r1 n with
      | none => simp [BEFFunctionReader.readResultRegsGo, h1, h2] at h
      | some q =>
        obtain ⟨vs1, r3⟩ := q
        simp only [BEFFunctionReader.readResultRegsGo, h1, h2,
          Option.some.injEq, Prod.mk.injEq] at h
        rcases h with ⟨h3, -⟩
        subst h3
        simp [ih r1 vs1 r3 h2]

/-- C10.  For a named non-native function the result types of the
created function come from the operand types of the trailing return
operation of its region: CreateBEFFuncOp builds the function type from
the last operation of the block and never reads the declared result
type handles (two index entries differing only in declared result
types yield the same function), while ReadResultRegs depends on the
declared result type list only through its length and returns exactly
that many register indices. -/
theorem claim10_theorem :
    (∀ loc bf region return_op rest, region.ops = rest ++ [return_op] →
      BEFToMLIRConverter.CreateBEFFuncOp loc bf region =
        Res.ok { name := byteStr bf.name, loc := loc,
                 argTypes := bf.argument_types,
                 resTypes := return_op.operands.map (fun v => v.ty),
                 native := false, body := some region }) ∧
    (∀ (loc : Loc) (bf : BEFFunction) (rts1 rts2 : List MType)
        (region : MRegion),
      BEFToMLIRConverter.CreateBEFFuncOp loc
          { bf with result_types := rts1 } region =
        BEFToMLIRConverter.CreateBEFFuncOp loc
          { bf with result_types := rts2 } region) ∧
    (∀ r bf1 bf2, bf1.result_types.length = bf2.result_types.length →
      BEFFunctionReader.ReadResultRegs r bf1 =
        BEFFunctionReader.ReadResultRegs r bf2) ∧
    (∀ r bf regsList r2,
      BEFFunctionReader.ReadResultRegs r bf = some (regsList, r2) →
      regsList.length = bf.result_types.length) := by
  refine ⟨?_, ?_, ?_, ?_⟩
  · intro loc bf region return_op rest h
    unfold BEFToMLIRConverter.CreateBEFFuncOp
    rw [h, List.getLast?_append_cons]
    rfl
  · intro loc bf rts1 rts2 region
    unfold BEFToMLIRConverter.CreateBEFFuncOp
    cases region.ops.getLast? <;> rfl
  · intro r bf1 bf2 h
    unfold BEFFunctionReader.ReadResultRegs
    rw [h]
  · intro r bf regsList r2 h
    exact readResultRegsGo_length bf.result_types.length r regsList r2 h

/-- C10 witness: a function index entry declaring two i64 results but
whose region ends in a return of a single i32 operand produces a
function whose result type list is the single i32; ReadResultRegs on
an entry with two declared results reads exactly two indices. -/
theorem claim10_witness :
    BEFToMLIRConverter.CreateBEFFuncOp Loc.origin
        ⟨0, [102], FunctionKind.kBEFFunction, [],
          [MType.named "i64", MType.named "i64"]⟩
        ⟨[], [⟨"hex.return", Loc.origin, [⟨Value.arg 0, MType.named "i32"⟩],
          [], [], 0⟩]⟩ =
      Res.ok { name := byteStr [102], loc := Loc.origin, argTypes := [],
               resTypes := [MType.named "i32"], native := false,
               body := some ⟨[], [⟨"hex.return", Loc.origin,
                 [⟨Value.arg 0, MType.named "i32"⟩], [], [], 0⟩]⟩ } ∧
    BEFFunctionReader.ReadResultRegs (BEFReader.mk0 [3, 4])
        ⟨0, [102], FunctionKind.kBEFFunction, [],
          [MType.named "i64", MType.named "i64"]⟩ =
      some ([3, 4], ⟨[3, 4], 2⟩) ∧
    ([3, 4] : List Nat).length =
      ([MType.named "i64", MType.named "i64"] : List MType).length :=
  ⟨claim10_theorem.1 Loc.origin
     ⟨0, [102], FunctionKind.kBEFFunction, [],
       [MType.named "i64", MType.named "i64"]⟩
     ⟨[], [⟨"hex.return", Loc.origin, [⟨Value.arg 0, MType.named "i32"⟩],
       [], [], 0⟩]⟩
     ⟨"hex.return", Loc.origin, [⟨Value.arg 0, MType.named "i32"⟩], [], [], 0⟩
     [] rfl,
   rfl,
   claim10_theorem.2.2.2 (BEFReader.mk0 [3, 4])
     ⟨0, [102], FunctionKind.kBEFFunction, [],
       [MType.named "i64", MType.named "i64"]⟩
     [3, 4] ⟨[3, 4], 2⟩ rfl⟩

lemma buildRegs_noneT (bef : BEFFile) (rtIndices reg_uses : List Nat)
    (i : Nat) (reg : RegisterInfo)
    (h : (BEFFunctionReader.buildRegs bef rtIndices reg_uses)[i]? = some reg)
    (hna : rtIndices.isEmpty ∨ bef.GetType (rtIndices.getD i 0) = none) :
    reg.type = MType.noneT := by
  unfold BEFFunctionReader.buildRegs at h
  rw [List.getElem?_map] at h
  by_cases hi : i < reg_uses.length
  · rw [List.getElem?_range hi] at h
    simp only [Option.map_some, Option.map_some', Option.some.injEq] at h
    subst h
    rcases hna with hna | hna
    · simp [hna]
    · rw [List.getD_eq_getElem?_getD] at hna
      simp [hna]
  · rw [List.getElem?_eq_none (by simpa using hi)] at h
    exact absurd h (by simp)

lemma readKernelAttributes_exhausted (bef : BEFFile) :
    ∀ offs i (an : BEFReader), an.ReadInt = none →
      (BEFFunctionReader.readKernelAttributes bef an offs i).1.map Prod.fst =
          synthNames i offs.length ∧
        (BEFFunctionReader.readKernelAttributes bef an offs i).2 = an := by
  intro offs
  induction offs with
  | nil =>
    intro i an _
    exact ⟨rfl, rfl⟩
  | cons off rest ih =>
    intro i an hra
    have := ih (i + 1) an hra
    simp only [BEFFunctionReader.readKernelAttributes, hra]
    match h2 : BEFFunctionReader.readKernelAttributes bef an rest (i + 1) with
    | (pairs, an2) =>
      rw [h2] at this
      simp only [List.map_cons, synthNames, List.length_cons]
      exact ⟨by rw [this.1.symm], this.2⟩

/-- C8.  When any of AttributeTypes, AttributeNames or RegisterTypes
is missing (its slice is empty) the section splitter still succeeds
and emits exactly the one missing-sections warning, and no warning at
all otherwise; the register table of a function whose type sub-array
is unavailable builds every register with the opaque none type, a
register whose individual type handle does not resolve also getting
none; and when the AttributeNames stream is exhausted the attribute
names of a kernel are synthesized as attr0, attr1, ... starting afresh
for the kernel. -/
theorem claim8_theorem :
    (∀ r s, BEFToMLIRConverter.readSectionsGo (r.data.length + 1) r
        BEFToMLIRConverter.BEFSections.mk0 = Res.ok s →
      BEFToMLIRConverter.ReadSections r = (Res.ok s,
        if (s.Get BEFToMLIRConverter.kAttributeTypes).isEmpty ∨
            (s.Get BEFToMLIRConverter.kAttributeNames).isEmpty ∨
            (s.Get BEFToMLIRConverter.kRegisterTypes).isEmpty then
          [⟨Sev.warning,
            "Missing AttributeTypes, AttributeNames or RegisterTypes sections."⟩]
        else [])) ∧
    (∀ bef fr rtypes rt1 reg_uses fr1,
      ReadIntArray rtypes = (none, rt1) →
      ReadIntArray fr = (some reg_uses, fr1) →
      BEFFunctionReader.ReadRegisterTable bef fr rtypes =
        Res.ok (BEFFunctionReader.buildRegs bef [] reg_uses, fr1, rt1)) ∧
    (∀ bef rtIndices reg_uses i reg,
      (BEFFunctionReader.buildRegs bef rtIndices reg_uses)[i]? = some reg →
      rtIndices.isEmpty ∨ bef.GetType (rtIndices.getD i 0) = none →
      reg.type = MType.noneT) ∧
    (∀ bef offs i (an : BEFReader), an.ReadInt = none →
      (BEFFunctionReader.readKernelAttributes bef an offs i).1.map Prod.fst =
        synthNames i offs.length) := by
  refine ⟨?_, ?_, ?_, ?_⟩
  · intro r s h
    by_cases hc : (s.Get BEFToMLIRConverter.kAttributeTypes = [] ∨
        s.Get BEFToMLIRConverter.kAttributeNames = [] ∨
        s.Get BEFToMLIRConverter.kRegisterTypes = [])
    · simp [BEFToMLIRConverter.ReadSections, h, hc]
    · simp [BEFToMLIRConverter.ReadSections, h, hc]
  · intro bef fr rtypes rt1 reg_uses fr1 h1 h2
    unfold BEFFunctionReader.ReadRegisterTable
    rw [h1, h2]
    simp
  · intro bef rtIndices reg_uses i reg h hna
    exact buildRegs_noneT bef rtIndices reg_uses i reg h hna
  · intro bef offs i an hra
    exact (readKernelAttributes_exhausted bef offs i an hra).1

/-- C8 witness: the container with version byte 5 lacks the three
optional sections and its splitter emits exactly the one warning; a
register table whose RegisterTypes stream is exhausted builds two
NoneType registers; three attribute offsets with an exhausted
AttributeNames stream get the names attr0, attr1, attr2. -/
theorem claim8_witness :
    BEFToMLIRConverter.ReadSections ⟨badVersionInput, 2⟩ =
      (Res.ok badVersionSections,
       [⟨Sev.warning,
         "Missing AttributeTypes, AttributeNames or RegisterTypes sections."⟩]) ∧
    BEFFunctionReader.ReadRegisterTable BEFFile.empty
        (BEFReader.mk0 [2, 7, 9]) (BEFReader.mk0 []) =
      Res.ok (BEFFunctionReader.buildRegs BEFFile.empty [] [7, 9],
        ⟨[2, 7, 9], 3⟩, BEFReader.mk0 []) ∧
    (∀ reg ∈ BEFFunctionReader.buildRegs BEFFile.empty [] [7, 9],
      reg.type = MType.noneT) ∧
    (BEFFunctionReader.readKernelAttributes BEFFile.empty
        (BEFReader.mk0 []) [11, 22, 33] 0).1.map Prod.fst =
      ["attr0", "attr1", "attr2"] := by
  refine ⟨?_, ?_, ?_, ?_⟩
  · exact claim8_theorem.1 ⟨badVersionInput, 2⟩ badVersionSections rfl
  · exact claim8_theorem.2.1 BEFFile.empty (BEFReader.mk0 [2, 7, 9])
      (BEFReader.mk0 []) (BEFReader.mk0 []) [7, 9] ⟨[2, 7, 9], 3⟩ rfl rfl
  · intro reg hreg
    have hlist : BEFFunctionReader.buildRegs BEFFile.empty [] [7, 9] =
        [⟨MType.noneT, 7, [], none⟩, ⟨MType.noneT, 9, [], none⟩] := rfl
    rw [hlist] at hreg
    simp only [List.mem_cons, List.not_mem_nil, or_false] at hreg
    rcases hreg with h | h
    · subst h
      exact claim8_theorem.2.2.1 BEFFile.empty [] [7, 9] 0 _ rfl (Or.inl rfl)
    · subst h
      exact claim8_theorem.2.2.1 BEFFile.empty [] [7, 9] 1 _ rfl (Or.inl rfl)
  · have := claim8_theorem.2.2.2 BEFFile.empty [11, 22, 33] 0
      (BEFReader.mk0 []) rfl
    rw [this]
    rfl

lemma resolveArguments_diags (regs : List RegisterInfo) :
    ∀ idxs res ds, BEFFunctionReader.resolveArguments regs idxs = (res, ds) →
      ∀ d ∈ ds, d = ⟨Sev.error, "Using undefined registers."⟩ := by
  intro idxs
  induction idxs with
  | nil =>
    intro res ds h d hd
    injection h with h1 h2
    rw [← h2] at hd
    exact absurd hd (by simp)
  | cons idx rest ih =>
    intro res ds h d hd
    cases hg : BEFFunctionReader.GetRegister regs idx with
    | thrown =>
      simp only [BEFFunctionReader.resolveArguments, hg] at h
      injection h with h1 h2
      rw [← h2] at hd
      exact absurd hd (by simp)
    | fail =>
      simp only [BEFFunctionReader.resolveArguments, hg] at h
      injection h with h1 h2
      rw [← h2] at hd
      exact absurd hd (by simp)
    | ok reg =>
      cases hv : reg.value with
      | none =>
        simp only [BEFFunctionReader.resolveArguments, hg, hv] at h
        injection h with h1 h2
        rw [← h2] at hd
        simpa using hd
      | some v =>
        cases hr : BEFFunctionReader.resolveArguments regs rest with
        | mk res2 ds2 =>
          cases res2 <;>
            (simp only [BEFFunctionReader.resolveArguments, hg, hv, hr] at h
             injection h with h1 h2
             rw [← h2] at hd
             exact ih _ ds2 hr d hd)

lemma readKernelFunctions_diags (bef : BEFFile) :
    ∀ idxs res ds, BEFFunctionReader.readKernelFunctions bef idxs = (res, ds) →
      ∀ d ∈ ds, d = ⟨Sev.error, "Unknown callee."⟩ := by
  intro idxs
  induction idxs with
  | nil =>
    intro res ds h d hd
    injection h with h1 h2
    rw [← h2] at hd
    exact absurd hd (by simp)
  | cons idx rest ih =>
    intro res ds h d hd
    cases hg : bef.GetFunction idx with
    | none =>
      simp only [BEFFunctionReader.readKernelFunctions, hg] at h
      injection h with h1 h2
      rw [← h2] at hd
      simpa using hd
    | some bf =>
      cases hr : BEFFunctionReader.readKernelFunctions bef rest with
      | mk res2 ds2 =>
        cases res2 with
        | ok p =>
          obtain ⟨cs, nr⟩ := p
          by_cases hn : bf.IsNamedFunction <;>
            (simp only [BEFFunctionReader.readKernelFunctions, hg, hr, hn,
               if_true, if_false] at h
             injection h with h1 h2
             rw [← h2] at hd
             exact ih _ ds2 hr d hd)
        | fail =>
          simp only [BEFFunctionReader.readKernelFunctions, hg, hr] at h
          injection h with h1 h2
          rw [← h2] at hd
          exact ih _ ds2 hr d hd
        | thrown =>
          simp only [BEFFunctionReader.readKernelFunctions, hg, hr] at h
          injection h with h1 h2
          rw [← h2] at hd
          exact ih _ ds2 hr d hd

lemma AddDefinition_diags (regs : List RegisterInfo) (value : TValue)
    (register_index : Nat) (res : Res (List RegisterInfo)) (ds : List Diag)
    (h : BEFFunctionReader.AddDefinition regs value register_index = (res, ds)) :
    ∀ d ∈ ds, d = ⟨Sev.error, "Redefinition of registers"⟩ := by
  intro d hd
  cases hg : BEFFunctionReader.GetRegister regs register_index with
  | thrown =>
    simp only [BEFFunctionReader.AddDefinition, hg] at h
    injection h with h1 h2
    rw [← h2] at hd
    exact absurd hd (by simp)
  | fail =>
    simp only [BEFFunctionReader.AddDefinition, hg] at h
    injection h with h1 h2
    rw [← h2] at hd
    exact absurd hd (by simp)
  | ok reg =>
    by_cases hv : reg.value.isSome
    · simp only [BEFFunctionReader.AddDefinition, hg, hv, if_true] at h
      injection h with h1 h2
      rw [← h2] at hd
      simpa using hd
    · by_cases ht : reg.type = value.ty ∨ reg.type = MType.noneT <;>
        (simp only [BEFFunctionReader.AddDefinition, hg, hv, ht, if_true,
           if_false, Bool.false_eq_true] at h
         injection h with h1 h2
         rw [← h2] at hd
         exact absurd hd (by simp))

lemma defineResults_diags (kernel : BEFKernel) (opId : Nat) :
    ∀ results regs tys i eo res ds,
      BEFFunctionReader.defineResults kernel opId regs results tys i eo =
        (res, ds) →
      ∀ d ∈ ds, d = ⟨Sev.error, "Redefinition of registers"⟩ := by
  intro results
  induction results with
  | nil =>
    intro regs tys i eo res ds h d hd
    injection h with h1 h2
    rw [← h2] at hd
    exact absurd hd (by simp)
  | cons ridx rest ih =>
    intro regs tys i eo res ds h d hd
    cases ha : BEFFunctionReader.AddDefinition regs
        ⟨Value.res opId i, tys.getD i MType.noneT⟩ ridx with
    | mk ares ads =>
      cases ares with
      | ok regs1 =>
        cases hr : BEFFunctionReader.defineResults kernel opId
            (BEFFunctionReader.setUsedbys regs1 ridx
              (kernel.GetKernelEntries eo (kernel.num_used_bys i)))
            rest tys (i + 1) (eo + kernel.num_used_bys i) with
        | mk res2 ds2 =>
          cases res2 <;>
            (simp only [BEFFunctionReader.defineResults, ha, hr] at h
             injection h with h1 h2
             rw [← h2] at hd
             rcases List.mem_append.mp hd with hda | hda
             · exact AddDefinition_diags _ _ _ _ _ ha d hda
             · exact ih _ _ _ _ _ _ hr d hda)
      | fail =>
        simp only [BEFFunctionReader.defineResults, ha] at h
        injection h with h1 h2
        rw [← h2] at hd
        exact AddDefinition_diags _ _ _ _ _ ha d hd
      | thrown =>
        simp only [BEFFunctionReader.defineResults, ha] at h
        injection h with h1 h2
        rw [← h2] at hd
        exact AddDefinition_diags _ _ _ _ _ ha d hd

lemma readKernelAttributes_subst (bef : BEFFile) :
    ∀ offs i (an : BEFReader),
      ((BEFFunctionReader.readKernelAttributes bef an offs i).1).map Prod.snd =
        offs.map (attrOrPlaceholder bef) := by
  intro offs
  induction offs with
  | nil =>
    intro i an
    rfl
  | cons off rest ih =>
    intro i an
    cases hr : an.ReadInt with
    | none =>
      cases hrec : BEFFunctionReader.readKernelAttributes bef an rest (i + 1) with
      | mk pairs an2 =>
        have hmap := ih (i + 1) an
        rw [hrec] at hmap
        simp only [BEFFunctionReader.readKernelAttributes, hr, hrec,
          List.map_cons, attrOrPlaceholder]
        rw [← hmap]
    | some p =>
      obtain ⟨name_off, an1⟩ := p
      cases hrec : BEFFunctionReader.readKernelAttributes bef an1 rest (i + 1) with
      | mk pairs an2 =>
        have hmap := ih (i + 1) an1
        rw [hrec] at hmap
        simp only [BEFFunctionReader.readKernelAttributes, hr, hrec,
          List.map_cons, attrOrPlaceholder]
        rw [← hmap]

lemma ReadKernel_diags (bef : BEFFile) (words : List Nat) (offset : Nat)
    (an : BEFReader) (regs : List RegisterInfo) (opId : Nat) :
    ∀ d ∈ (BEFFunctionReader.ReadKernel bef words offset an regs opId).2,
      d.sev = Sev.error ∧
        d.msg ∈ ["Using undefined registers.", "Unknown callee.",
          "Redefinition of registers"] := by
  intro d hd
  unfold BEFFunctionReader.ReadKernel at hd
  simp only [] at hd
  repeat' split at hd
  all_goals try exact absurd hd (List.not_mem_nil d)
  all_goals
    first
    | (have hda := resolveArguments_diags _ _ _ _ (by assumption) d hd
       subst hda
       exact ⟨rfl, by simp⟩)
    | (have hda := readKernelFunctions_diags _ _ _ _ (by assumption) d hd
       subst hda
       exact ⟨rfl, by simp⟩)
    | (have hda := defineResults_diags _ _ _ _ _ _ _ _ _ (by assumption) d hd
       subst hda
       exact ⟨rfl, by simp⟩)

/-- C4.  The claim is right that a kernel attribute offset absent from
the decoded attribute map is substituted by the placeholder 32 bit
integer 0xDEADBEEF and that the kernel decode continues, but no
warning is emitted for the substitution: the attribute loop issues no
diagnostic at all, and every diagnostic ReadKernel can ever emit is an
error about registers or callees, never a warning about attributes.
Amended: the substitution happens silently and decoding continues. -/
theorem claim4_amended :
    (∀ bef offs i (an : BEFReader),
      ((BEFFunctionReader.readKernelAttributes bef an offs i).1).map
        Prod.snd = offs.map (attrOrPlaceholder bef)) ∧
    (∀ (bef : BEFFile) (off : Nat), bef.GetAttribute off = MAttr.null →
      attrOrPlaceholder bef off = MAttr.int 32 3735928559) ∧
    (∀ bef offs i (an : BEFReader),
      (BEFFunctionReader.readKernelAttributes bef an offs i).1.length =
        offs.length) ∧
    (∀ bef words offset (an : BEFReader) regs opId,
      ∀ d ∈ (BEFFunctionReader.ReadKernel bef words offset an regs opId).2,
        d.sev = Sev.error ∧
          d.msg ∈ ["Using undefined registers.", "Unknown callee.",
            "Redefinition of registers"]) := by
  refine ⟨readKernelAttributes_subst, ?_, ?_, ?_⟩
  · intro bef off h
    simp [attrOrPlaceholder, h]
  · intro bef offs i an
    have := congrArg List.length (readKernelAttributes_subst bef offs i an)
    simpa using this
  · exact ReadKernel_diags

/-- C4 witness: the attribute loop on the single unmapped offset 99
produces exactly the placeholder list, and a diagnostic ReadKernel
does emit (for an undefined operand register) is an error from the
fixed register and callee message set, not an attribute warning. -/
theorem claim4_witness :
    ((BEFFunctionReader.readKernelAttributes bef4c (BEFReader.mk0 [])
        [99] 0).1).map Prod.snd = [99].map (attrOrPlaceholder bef4c) ∧
    ((⟨Sev.error, "Using undefined registers."⟩ : Diag).sev = Sev.error ∧
      (⟨Sev.error, "Using undefined registers."⟩ : Diag).msg ∈
        ["Using undefined registers.", "Unknown callee.",
          "Redefinition of registers"]) :=
  ⟨claim4_amended.1 bef4c [99] 0 (BEFReader.mk0 []),
   claim4_amended.2.2.2 bef4c kernelWords4u 0 (BEFReader.mk0 [])
     [⟨MType.noneT, 0, [], none⟩] 0
     ⟨Sev.error, "Using undefined registers."⟩ (by decide)⟩

/-- C4 counterexample: a kernel with one attribute at the unmapped
offset 99 decodes successfully, the attribute becoming the placeholder
0xDEADBEEF under the synthesized name, with an empty diagnostic list -
no warning is emitted, contrary to the claim. -/
theorem claim4_counterexample :
    bef4c.GetAttribute 99 = MAttr.null ∧
    BEFFunctionReader.ReadKernel bef4c kernelWords4c 0 (BEFReader.mk0 [])
        [] 0 =
      (Res.ok ({ name := byteStr [107], loc := Loc.fileLineCol [102] 1 2,
                 operands := [], attrs := [("attr0", MAttr.int 32 3735928559)],
                 resultTypes := [], numRegions := 0 }, [], BEFReader.mk0 [],
        none), []) :=
  ⟨rfl, rfl⟩

lemma GetRegister_erase (regs : List RegisterInfo) (i : Nat) :
    BEFFunctionReader.GetRegister (regs.map eraseUses) i =
      match BEFFunctionReader.GetRegister regs i with
      | .ok r => .ok (eraseUses r)
      | .fail => .fail
      | .thrown => .thrown := by
  unfold BEFFunctionReader.GetRegister
  rw [List.getElem?_map]
  cases regs[i]? <;> rfl

lemma resolveArguments_erase (regs : List RegisterInfo) :
    ∀ idxs, BEFFunctionReader.resolveArguments (regs.map eraseUses) idxs =
      BEFFunctionReader.resolveArguments regs idxs := by
  intro idxs
  induction idxs with
  | nil => rfl
  | cons idx rest ih =>
    simp only [BEFFunctionReader.resolveArguments, GetRegister_erase, ih]
    cases BEFFunctionReader.GetRegister regs idx with
    | thrown => rfl
    | fail => rfl
    | ok reg =>
      show (match (eraseUses reg).value with
        | none => _
        | some v => _) = _
      cases reg.value <;> rfl

lemma resolveResultTypes_erase (regs : List RegisterInfo) :
    ∀ idxs, BEFFunctionReader.resolveResultTypes (regs.map eraseUses) idxs =
      BEFFunctionReader.resolveResultTypes regs idxs := by
  intro idxs
  induction idxs with
  | nil => rfl
  | cons idx rest ih =>
    simp only [BEFFunctionReader.resolveResultTypes, GetRegister_erase, ih]
    cases BEFFunctionReader.GetRegister regs idx with
    | thrown => rfl
    | fail => rfl
    | ok reg =>
      cases BEFFunctionReader.resolveResultTypes regs rest <;> rfl

lemma resolveReturnOperands_erase (regs : List RegisterInfo) :
    ∀ idxs, BEFFunctionReader.resolveReturnOperands (regs.map eraseUses) idxs =
      BEFFunctionReader.resolveReturnOperands regs idxs := by
  intro idxs
  induction idxs with
  | nil => rfl
  | cons idx rest ih =>
    simp only [BEFFunctionReader.resolveReturnOperands, GetRegister_erase, ih]
    cases BEFFunctionReader.GetRegister regs idx with
    | thrown => rfl
    | fail => rfl
    | ok reg =>
      show (match (eraseUses reg).value with
        | none => _
        | some v => _) = _
      cases reg.value <;> rfl

lemma AddDefinition_erase (regs : List RegisterInfo) (v : TValue) (i : Nat) :
    BEFFunctionReader.AddDefinition (regs.map eraseUses) v i =
      match BEFFunctionReader.AddDefinition regs v i with
      | (.ok regs1, ds) => (.ok (regs1.map eraseUses), ds)
      | (.fail, ds) => (.fail, ds)
      | (.thrown, ds) => (.thrown, ds) := by
  unfold BEFFunctionReader.AddDefinition
  rw [GetRegister_erase]
  cases hg : BEFFunctionReader.GetRegister regs i with
  | thrown => rfl
  | fail => rfl
  | ok reg =>
    by_cases hv : reg.value.isSome
    · simp [eraseUses, hv]
    · by_cases ht : reg.type = v.ty ∨ reg.type = MType.noneT
      · simp [eraseUses, hv, ht, List.map_set]
      · simp [eraseUses, hv, ht]

lemma setUsedbys_erase (regs : List RegisterInfo) (i : Nat) (ub : List Nat) :
    BEFFunctionReader.setUsedbys (regs.map eraseUses) i ub =
      (BEFFunctionReader.setUsedbys regs i ub).map eraseUses := by
  unfold BEFFunctionReader.setUsedbys
  rw [List.getElem?_map]
  cases regs[i]? with
  | none => rfl
  | some reg => simp [eraseUses, List.map_set]

lemma defineResults_erase (kernel : BEFKernel) (opId : Nat) :
    ∀ results regs tys i eo,
      BEFFunctionReader.defineResults kernel opId (regs.map eraseUses)
          results tys i eo =
        match BEFFunctionReader.defineResults kernel opId regs results tys
            i eo with
        | (.ok regs1, ds) => (.ok (regs1.map eraseUses), ds)
        | (.fail, ds) => (.fail, ds)
        | (.thrown, ds) => (.thrown, ds) := by
  intro results
  induction results with
  | nil => intro regs tys i eo; rfl
  | cons ridx rest ih =>
    intro regs tys i eo
    simp only [BEFFunctionReader.defineResults]
    rw [AddDefinition_erase]
    cases ha : BEFFunctionReader.AddDefinition regs
        ⟨Value.res opId i, tys.getD i MType.noneT⟩ ridx with
    | mk ares ds =>
      cases ares with
      | ok regs1 =>
        simp only []
        rw [setUsedbys_erase, ih]
        cases BEFFunctionReader.defineResults kernel opId
            (BEFFunctionReader.setUsedbys regs1 ridx
              (kernel.GetKernelEntries eo (kernel.num_used_bys i)))
            rest tys (i + 1) (eo + kernel.num_used_bys i) with
        | mk r2 d2 => cases r2 <;> rfl
      | fail => rfl
      | thrown => rfl

lemma pseudoDefs_erase (entry_args : List MType) :
    ∀ results regs i,
      BEFFunctionReader.pseudoDefs entry_args (regs.map eraseUses) results i =
        match BEFFunctionReader.pseudoDefs entry_args regs results i with
        | (.ok regs1, ds) => (.ok (regs1.map eraseUses), ds)
        | (.fail, ds) => (.fail, ds)
        | (.thrown, ds) => (.thrown, ds) := by
  intro results
  induction results with
  | nil => intro regs i; rfl
  | cons ridx rest ih =>
    intro regs i
    simp only [BEFFunctionReader.pseudoDefs]
    rw [AddDefinition_erase]
    cases ha : BEFFunctionReader.AddDefinition regs
        ⟨Value.arg i, entry_args.getD i MType.noneT⟩ ridx with
    | mk ares ds =>
      cases ares with
      | ok regs1 =>
        simp only []
        rw [ih]
        cases BEFFunctionReader.pseudoDefs entry_args regs1 rest (i + 1) with
        | mk r2 d2 => cases r2 <;> rfl
      | fail => rfl
      | thrown => rfl

lemma pseudoUsedbys_erase (kernel : BEFKernel) :
    ∀ results regs i eo,
      BEFFunctionReader.pseudoUsedbys kernel (regs.map eraseUses) results
          i eo =
        (BEFFunctionReader.pseudoUsedbys kernel regs results i eo).map
          eraseUses := by
  intro results
  induction results with
  | nil => intro regs i eo; rfl
  | cons ridx rest ih =>
    intro regs i eo
    simp only [BEFFunctionReader.pseudoUsedbys]
    rw [setUsedbys_erase, ih]

lemma ReadArgumentsPseudoKernel_erase (words : List Nat)
    (entry_args : List MType) (regs : List RegisterInfo) :
    BEFFunctionReader.ReadArgumentsPseudoKernel words entry_args
        (regs.map eraseUses) =
      match BEFFunctionReader.ReadArgumentsPseudoKernel words entry_args
          regs with
      | (.ok regs1, ds) => (.ok (regs1.map eraseUses), ds)
      | (.fail, ds) => (.fail, ds)
      | (.thrown, ds) => (.thrown, ds) := by
  unfold BEFFunctionReader.ReadArgumentsPseudoKernel
  simp only []
  by_cases hc : ((⟨words⟩ : BEFKernel).num_arguments ≠ 0 ∨
      (⟨words⟩ : BEFKernel).num_attributes ≠ 0 ∨
      (⟨words⟩ : BEFKernel).num_functions ≠ 0 ∨
      (⟨words⟩ : BEFKernel).num_results ≠ entry_args.length)
  · rw [if_pos hc, if_pos hc]
  · rw [if_neg hc, if_neg hc, pseudoDefs_erase]
    cases hp : BEFFunctionReader.pseudoDefs entry_args regs
        ((⟨words⟩ : BEFKernel).GetKernelEntries 0
          (⟨words⟩ : BEFKernel).num_results) 0 with
    | mk pres ds2 =>
      cases pres with
      | ok regs1 => simp [pseudoUsedbys_erase]
      | fail => rfl
      | thrown => rfl

lemma ReadKernel_erase (bef : BEFFile) (words : List Nat) (offset : Nat)
    (an : BEFReader) (regs : List RegisterInfo) (opId : Nat) :
    BEFFunctionReader.ReadKernel bef words offset an (regs.map eraseUses)
        opId =
      eraseKernelRes (BEFFunctionReader.ReadKernel bef words offset an regs
        opId) := by
  unfold BEFFunctionReader.ReadKernel
  by_cases hoff : offset % 4 ≠ 0
  · simp only [if_pos hoff]
    rfl
  · simp only [if_neg hoff]
    simp only [resolveArguments_erase, resolveResultTypes_erase,
      defineResults_erase]
    generalize BEFKernel.mk (List.drop (offset / 4) words) = kernel
    generalize kernel.GetKernelEntries 0 kernel.num_arguments = argsE
    generalize kernel.GetKernelEntries argsE.length kernel.num_attributes =
      attrsE
    generalize kernel.GetKernelEntries (argsE.length + attrsE.length)
      kernel.num_functions = fnsE
    generalize kernel.GetKernelEntries
      (argsE.length + attrsE.length + fnsE.length) kernel.num_results = resE
    cases hk : bef.kernels[kernel.kernel_code]? with
    | none => rfl
    | some nameBytes =>
      cases hl : bef.GetLocationPosition kernel.kernel_location with
      | none => rfl
      | some loc =>
        cases hra : BEFFunctionReader.resolveArguments regs argsE with
        | mk rres rds =>
          cases rres with
          | fail => simp only [hra]; rfl
          | thrown => simp only [hra]; rfl
          | ok operands =>
            simp only [hra]
            cases han : an.ReadByte with
            | none =>
              cases hka : BEFFunctionReader.readKernelAttributes bef an
                  attrsE 0 with
              | mk attrPairs an2 =>
                simp only [han, hka]
                cases hkf : BEFFunctionReader.readKernelFunctions bef fnsE with
                | mk fres fds =>
                  cases fres with
                  | fail => simp only [hkf]; rfl
                  | thrown => simp only [hkf]; rfl
                  | ok p2 =>
                    obtain ⟨calleeAttrs, numRegions⟩ := p2
                    simp only [hkf]
                    cases hrt : BEFFunctionReader.resolveResultTypes regs
                        resE with
                    | thrown => simp only [hrt]; rfl
                    | fail => simp only [hrt]; rfl
                    | ok types =>
                      simp only [hrt]
                      cases hdr : BEFFunctionReader.defineResults kernel opId
                          regs resE types 0
                          (argsE.length + attrsE.length + fnsE.length +
                            resE.length) with
                      | mk dres dds =>
                        cases dres with
                        | fail => simp only [hdr]; rfl
                        | thrown => simp only [hdr]; rfl
                        | ok regs1 =>
                          simp only [hdr]
                          split_ifs <;> rfl
            | some p =>
              obtain ⟨b, an1⟩ := p
              cases hka : BEFFunctionReader.readKernelAttributes bef an1
                  attrsE 0 with
              | mk attrPairs an2 =>
                simp only [han, hka]
                cases hkf : BEFFunctionReader.readKernelFunctions bef fnsE with
                | mk fres fds =>
                  cases fres with
                  | fail => simp only [hkf]; rfl
                  | thrown => simp only [hkf]; rfl
                  | ok p2 =>
                    obtain ⟨calleeAttrs, numRegions⟩ := p2
                    simp only [hkf]
                    cases hrt : BEFFunctionReader.resolveResultTypes regs
                        resE with
                    | thrown => simp only [hrt]; rfl
                    | fail => simp only [hrt]; rfl
                    | ok types =>
                      simp only [hrt]
                      cases hdr : BEFFunctionReader.defineResults kernel opId
                          regs resE types 0
                          (argsE.length + attrsE.length + fnsE.length +
                            resE.length) with
                      | mk dres dds =>
                        cases dres with
                        | fail => simp only [hdr]; rfl
                        | thrown => simp only [hdr]; rfl
                        | ok regs1 =>
                          simp only [hdr]
                          split_ifs <;> rfl

lemma kernelLoop_erase (bef : BEFFile) (words : List Nat) :
    ∀ entries (an : BEFReader) (regs : List RegisterInfo) (opId : Nat),
      BEFFunctionReader.kernelLoop bef words entries an (regs.map eraseUses)
          opId =
        match BEFFunctionReader.kernelLoop bef words entries an regs opId with
        | (.ok (ops, regs2, an2, refs), ds) =>
          (.ok (ops, regs2.map eraseUses, an2, refs), ds)
        | (.fail, ds) => (.fail, ds)
        | (.thrown, ds) => (.thrown, ds) := by
  intro entries
  induction entries with
  | nil => intro an regs opId; rfl
  | cons e rest ih =>
    intro an regs opId
    simp only [BEFFunctionReader.kernelLoop]
    rw [ReadKernel_erase]
    cases hkk : BEFFunctionReader.ReadKernel bef words e.offset an regs
        opId with
    | mk kres kds =>
      cases kres with
      | fail => simp only [hkk]; try rfl
      | thrown => simp only [hkk]; try rfl
      | ok q =>
        obtain ⟨op, regs1, an1, refOpt⟩ := q
        simp only [hkk, eraseKernelRes]
        rw [ih]
        cases hkl : BEFFunctionReader.kernelLoop bef words rest an1 regs1
            (opId + 1) with
        | mk lres lds =>
          cases lres with
          | fail => simp only [hkl]; try rfl
          | thrown => simp only [hkl]; try rfl
          | ok q2 =>
            obtain ⟨ops, regs2, an2, refs⟩ := q2
            simp only [hkl]
            try (cases refOpt <;> rfl)

lemma ReadKernels_erase (bef : BEFFile) (words : List Nat) (an : BEFReader)
    (argTypes : List MType) (kernel_table : List KernelTableEntry)
    (result_regs : List Nat) (loc : Loc) (regs : List RegisterInfo) :
    BEFFunctionReader.ReadKernels bef words an argTypes kernel_table
        result_regs loc (regs.map eraseUses) =
      match BEFFunctionReader.ReadKernels bef words an argTypes kernel_table
          result_regs loc regs with
      | (.ok (ops, regs2, an2, refs), ds) =>
        (.ok (ops, regs2.map eraseUses, an2, refs), ds)
      | (.fail, ds) => (.fail, ds)
      | (.thrown, ds) => (.thrown, ds) := by
  unfold BEFFunctionReader.ReadKernels
  try simp only []
  cases hci : an.ReadInt with
  | none =>
    simp only [hci]
    by_cases hae : argTypes.isEmpty = true
    · rw [if_pos hae, if_pos hae]
      try simp only []
      rw [kernelLoop_erase]
      cases hkl : BEFFunctionReader.kernelLoop bef words kernel_table an regs 0 with
      | mk lres lds =>
        cases lres with
        | fail => simp only [hkl]; try rfl
        | thrown => simp only [hkl]; try rfl
        | ok q =>
          obtain ⟨ops, regs2, an2, refs⟩ := q
          simp only [hkl]
          rw [resolveReturnOperands_erase]
          cases hro : BEFFunctionReader.resolveReturnOperands regs2 result_regs with
          | mk rres2 rds2 =>
            cases rres2 with
            | fail => simp only [hro]; try rfl
            | thrown => simp only [hro]; try rfl
            | ok rvals => simp only [hro]; try rfl
    · rw [if_neg hae, if_neg hae, ReadArgumentsPseudoKernel_erase]
      cases hps : BEFFunctionReader.ReadArgumentsPseudoKernel words argTypes regs with
      | mk pres pds =>
        cases pres with
        | fail => simp only [hps]; try rfl
        | thrown => simp only [hps]; try rfl
        | ok regs1 =>
          simp only [hps]
          cases hb : an.ReadByte with
          | none =>
            simp only [hb]
            try simp only []
            rw [kernelLoop_erase]
            cases hkl : BEFFunctionReader.kernelLoop bef words (kernel_table.drop 1) an regs1 0 with
            | mk lres lds =>
              cases lres with
              | fail => simp only [hkl]; try rfl
              | thrown => simp only [hkl]; try rfl
              | ok q =>
                obtain ⟨ops, regs2, an2, refs⟩ := q
                simp only [hkl]
                rw [resolveReturnOperands_erase]
                cases hro : BEFFunctionReader.resolveReturnOperands regs2 result_regs with
                | mk rres2 rds2 =>
                  cases rres2 with
                  | fail => simp only [hro]; try rfl
                  | thrown => simp only [hro]; try rfl
                  | ok rvals => simp only [hro]; try rfl
          | some q =>
            obtain ⟨bb, anb⟩ := q
            simp only [hb]
            try simp only []
            rw [kernelLoop_erase]
            cases hkl : BEFFunctionReader.kernelLoop bef words (kernel_table.drop 1) anb regs1 0 with
            | mk lres lds =>
              cases lres with
              | fail => simp only [hkl]; try rfl
              | thrown => simp only [hkl]; try rfl
              | ok q =>
                obtain ⟨ops, regs2, an2, refs⟩ := q
                simp only [hkl]
                rw [resolveReturnOperands_erase]
                cases hro : BEFFunctionReader.resolveReturnOperands regs2 result_regs with
                | mk rres2 rds2 =>
                  cases rres2 with
                  | fail => simp only [hro]; try rfl
                  | thrown => simp only [hro]; try rfl
                  | ok rvals => simp only [hro]; try rfl
  | some p =>
    obtain ⟨n, anx⟩ := p
    simp only [hci]
    by_cases hn : n = kernel_table.length
    · rw [if_pos hn]
      try simp only []
      by_cases hae : argTypes.isEmpty = true
      · rw [if_pos hae, if_pos hae]
        try simp only []
        rw [kernelLoop_erase]
        cases hkl : BEFFunctionReader.kernelLoop bef words kernel_table anx regs 0 with
        | mk lres lds =>
          cases lres with
          | fail => simp only [hkl]; try rfl
          | thrown => simp only [hkl]; try rfl
          | ok q =>
            obtain ⟨ops, regs2, an2, refs⟩ := q
            simp only [hkl]
            rw [resolveReturnOperands_erase]
            cases hro : BEFFunctionReader.resolveReturnOperands regs2 result_regs with
            | mk rres2 rds2 =>
              cases rres2 with
              | fail => simp only [hro]; try rfl
              | thrown => simp only [hro]; try rfl
              | ok rvals => simp only [hro]; try rfl
      · rw [if_neg hae, if_neg hae, ReadArgumentsPseudoKernel_erase]
        cases hps : BEFFunctionReader.ReadArgumentsPseudoKernel words argTypes regs with
        | mk pres pds =>
          cases pres with
          | fail => simp only [hps]; try rfl
          | thrown => simp only [hps]; try rfl
          | ok regs1 =>
            simp only [hps]
            cases hb : anx.ReadByte with
            | none =>
              simp only [hb]
              try simp only []
              rw [kernelLoop_erase]
              cases hkl : BEFFunctionReader.kernelLoop bef words (kernel_table.drop 1) anx regs1 0 with
              | mk lres lds =>
                cases lres with
                | fail => simp only [hkl]; try rfl
                | thrown => simp only [hkl]; try rfl
                | ok q =>
                  obtain ⟨ops, regs2, an2, refs⟩ := q
                  simp only [hkl]
                  rw [resolveReturnOperands_erase]
                  cases hro : BEFFunctionReader.resolveReturnOperands regs2 result_regs with
                  | mk rres2 rds2 =>
                    cases rres2 with
                    | fail => simp only [hro]; try rfl
                    | thrown => simp only [hro]; try rfl
                    | ok rvals => simp only [hro]; try rfl
            | some q =>
              obtain ⟨bb, anb⟩ := q
              simp only [hb]
              try simp only []
              rw [kernelLoop_erase]
              cases hkl : BEFFunctionReader.kernelLoop bef words (kernel_table.drop 1) anb regs1 0 with
              | mk lres lds =>
                cases lres with
                | fail => simp only [hkl]; try rfl
                | thrown => simp only [hkl]; try rfl
                | ok q =>
                  obtain ⟨ops, regs2, an2, refs⟩ := q
                  simp only [hkl]
                  rw [resolveReturnOperands_erase]
                  cases hro : BEFFunctionReader.resolveReturnOperands regs2 result_regs with
                  | mk rres2 rds2 =>
                    cases rres2 with
                    | fail => simp only [hro]; try rfl
                    | thrown => simp only [hro]; try rfl
                    | ok rvals => simp only [hro]; try rfl
    · rw [if_neg hn]
      try rfl

lemma pseudoDefs_diags (entry_args : List MType) :
    ∀ results regs i res ds,
      BEFFunctionReader.pseudoDefs entry_args regs results i = (res, ds) →
      ∀ d ∈ ds, d = ⟨Sev.error, "Redefinition of registers"⟩ := by
  intro results
  induction results with
  | nil =>
    intro regs i res ds h d hd
    injection h with h1 h2
    rw [← h2] at hd
    exact absurd hd (by simp)
  | cons ridx rest ih =>
    intro regs i res ds h d hd
    cases ha : BEFFunctionReader.AddDefinition regs
        ⟨.arg i, entry_args.getD i .noneT⟩ ridx with
    | mk ares ads =>
      cases ares with
      | ok regs1 =>
        simp only [BEFFunctionReader.pseudoDefs, ha] at h
        cases hrec : BEFFunctionReader.pseudoDefs entry_args regs1 rest
            (i + 1) with
        | mk rres rds =>
          cases rres <;>
            (simp only [hrec] at h
             injection h with h1 h2
             rw [← h2] at hd
             rcases List.mem_append.mp hd with hda | hdr
             · exact AddDefinition_diags _ _ _ _ _ ha d hda
             · exact ih _ _ _ _ hrec d hdr)
      | fail =>
        simp only [BEFFunctionReader.pseudoDefs, ha] at h
        injection h with h1 h2
        rw [← h2] at hd
        exact AddDefinition_diags _ _ _ _ _ ha d hd
      | thrown =>
        simp only [BEFFunctionReader.pseudoDefs, ha] at h
        injection h with h1 h2
        rw [← h2] at hd
        exact AddDefinition_diags _ _ _ _ _ ha d hd

lemma ReadArgumentsPseudoKernel_diags (words : List Nat)
    (entry_args : List MType) (regs : List RegisterInfo)
    (res : Res (List RegisterInfo)) (ds : List Diag)
    (h : BEFFunctionReader.ReadArgumentsPseudoKernel words entry_args regs =
      (res, ds)) :
    ∀ d ∈ ds, d = ⟨Sev.error, "Redefinition of registers"⟩ := by
  intro d hd
  unfold BEFFunctionReader.ReadArgumentsPseudoKernel at h
  simp only [] at h
  split at h
  · injection h with h1 h2
    rw [← h2] at hd
    exact absurd hd (by simp)
  · split at h <;>
      (injection h with h1 h2
       rw [← h2] at hd
       exact pseudoDefs_diags _ _ _ _ _ _ (by assumption) d hd)

lemma resolveReturnOperands_diags (regs : List RegisterInfo) :
    ∀ idxs res ds,
      BEFFunctionReader.resolveReturnOperands regs idxs = (res, ds) →
      ∀ d ∈ ds,
        d = ⟨Sev.error, "Using an undefined register in return op."⟩ := by
  intro idxs
  induction idxs with
  | nil =>
    intro res ds h d hd
    injection h with h1 h2
    rw [← h2] at hd
    exact absurd hd (by simp)
  | cons idx rest ih =>
    intro res ds h d hd
    cases hg : BEFFunctionReader.GetRegister regs idx with
    | thrown =>
      simp only [BEFFunctionReader.resolveReturnOperands, hg] at h
      injection h with h1 h2
      rw [← h2] at hd
      exact absurd hd (by simp)
    | fail =>
      simp only [BEFFunctionReader.resolveReturnOperands, hg] at h
      injection h with h1 h2
      rw [← h2] at hd
      exact absurd hd (by simp)
    | ok reg =>
      cases hv : reg.value with
      | none =>
        simp only [BEFFunctionReader.resolveReturnOperands, hg, hv] at h
        injection h with h1 h2
        rw [← h2] at hd
        simpa using hd
      | some v =>
        simp only [BEFFunctionReader.resolveReturnOperands, hg, hv] at h
        cases hrec : BEFFunctionReader.resolveReturnOperands regs rest with
        | mk rres rds =>
          cases rres <;>
            (simp only [hrec] at h
             injection h with h1 h2
             rw [← h2] at hd
             exact ih _ _ hrec d hd)

lemma kernelLoop_diags (bef : BEFFile) (words : List Nat) :
    ∀ entries (an : BEFReader) (regs : List RegisterInfo) (opId : Nat)
      res ds,
      BEFFunctionReader.kernelLoop bef words entries an regs opId =
        (res, ds) →
      ∀ d ∈ ds, d.sev = Sev.error ∧
        d.msg ∈ ["Using undefined registers.", "Unknown callee.",
          "Redefinition of registers"] := by
  intro entries
  induction entries with
  | nil =>
    intro an regs opId res ds h d hd
    injection h with h1 h2
    rw [← h2] at hd
    exact absurd hd (by simp)
  | cons e rest ih =>
    intro an regs opId res ds h d hd
    cases hk : BEFFunctionReader.ReadKernel bef words e.offset an regs
        opId with
    | mk kres kds =>
      cases kres with
      | ok q =>
        obtain ⟨op, regs1, an1, refOpt⟩ := q
        simp only [BEFFunctionReader.kernelLoop, hk] at h
        cases hl : BEFFunctionReader.kernelLoop bef words rest an1 regs1
            (opId + 1) with
        | mk lres lds =>
          cases lres <;>
            (simp only [hl] at h
             injection h with h1 h2
             rw [← h2] at hd
             rcases List.mem_append.mp hd with hdk | hdl
             · exact ReadKernel_diags bef words e.offset an regs opId d
                 (by rw [hk]; exact hdk)
             · exact ih _ _ _ _ _ hl d hdl)
      | fail =>
        simp only [BEFFunctionReader.kernelLoop, hk] at h
        injection h with h1 h2
        rw [← h2] at hd
        exact ReadKernel_diags bef words e.offset an regs opId d
          (by rw [hk]; exact hd)
      | thrown =>
        simp only [BEFFunctionReader.kernelLoop, hk] at h
        injection h with h1 h2
        rw [← h2] at hd
        exact ReadKernel_diags bef words e.offset an regs opId d
          (by rw [hk]; exact hd)

lemma pseudoExpr_diags (words : List Nat) (argTypes : List MType)
    (an0 : BEFReader) (kernel_table : List KernelTableEntry)
    (regs : List RegisterInfo)
    (res : Res (BEFReader × List RegisterInfo × List KernelTableEntry))
    (ds : List Diag)
    (h : (if argTypes.isEmpty then
            ((.ok (an0, regs, kernel_table) :
              Res (BEFReader × List RegisterInfo × List KernelTableEntry)),
             ([] : List Diag))
          else
            match BEFFunctionReader.ReadArgumentsPseudoKernel words argTypes
                regs with
            | (.ok regs1, ds) =>
              (.ok
                (match an0.ReadByte with
                 | some (_, a) => a
                 | none => an0, regs1, kernel_table.drop 1), ds)
            | (.fail, ds) =>
              (.fail, ds ++ [⟨.error, "Failed to read pseudo."⟩])
            | (.thrown, ds) => (.thrown, ds)) = (res, ds)) :
    ∀ d ∈ ds, d.sev = Sev.error := by
  intro d hd
  split at h
  · injection h with h1 h2
    rw [← h2] at hd
    exact absurd hd (by simp)
  · split at h <;>
      (injection h with h1 h2
       rw [← h2] at hd
       first
       | exact (ReadArgumentsPseudoKernel_diags _ _ _ _ _ (by assumption) d
           hd) ▸ rfl
       | (rcases List.mem_append.mp hd with hd | hd
          · exact (ReadArgumentsPseudoKernel_diags _ _ _ _ _ (by assumption)
              d hd) ▸ rfl
          · rcases List.mem_singleton.mp hd with rfl; exact rfl))

lemma ReadKernels_diags (bef : BEFFile) (words : List Nat) (an : BEFReader)
    (argTypes : List MType) (kernel_table : List KernelTableEntry)
    (result_regs : List Nat) (loc : Loc) (regs : List RegisterInfo) :
    ∀ d ∈ (BEFFunctionReader.ReadKernels bef words an argTypes kernel_table
        result_regs loc regs).2, d.sev = Sev.error := by
  intro d hd
  unfold BEFFunctionReader.ReadKernels at hd
  simp only [] at hd
  repeat' split at hd
  all_goals try exact absurd hd (List.not_mem_nil d)
  all_goals
    repeat'
      first
      | exact pseudoExpr_diags _ _ _ _ _ _ _ (by assumption) d hd
      | exact (kernelLoop_diags _ _ _ _ _ _ _ _ (by assumption) d hd).1
      | exact (resolveReturnOperands_diags _ _ _ _ (by assumption) d hd) ▸ rfl
      | (rcases List.mem_append.mp hd with hd | hd)
      | (rcases List.mem_singleton.mp hd with rfl; exact rfl)

/-- C5.  The claim is right that a mismatch between a register's
declared use count and the number of operand positions that actually
use it never makes the decode fail, but wrong that a warning is
surfaced: the declared counts are stored and never read back, so the
whole kernel decode - operations, final register table up to the
stored counts, reader position, deferred regions and diagnostics - is
identical whether the counts are kept or all replaced by 0, and every
diagnostic ReadKernels can emit is an error about registers, callees
or the pseudo kernel, never a warning.  Amended: a use count mismatch
is ignored silently. -/
theorem claim5_amended :
    (∀ (bef : BEFFile) (words : List Nat) (an : BEFReader)
        (argTypes : List MType) (kernel_table : List KernelTableEntry)
        (result_regs : List Nat) (loc : Loc) (regs : List RegisterInfo),
      BEFFunctionReader.ReadKernels bef words an argTypes kernel_table
          result_regs loc (regs.map eraseUses) =
        match BEFFunctionReader.ReadKernels bef words an argTypes
            kernel_table result_regs loc regs with
        | (.ok (ops, regs2, an2, refs), ds) =>
          (.ok (ops, regs2.map eraseUses, an2, refs), ds)
        | (.fail, ds) => (.fail, ds)
        | (.thrown, ds) => (.thrown, ds)) ∧
    (∀ (bef : BEFFile) (words : List Nat) (an : BEFReader)
        (argTypes : List MType) (kernel_table : List KernelTableEntry)
        (result_regs : List Nat) (loc : Loc) (regs : List RegisterInfo),
      ∀ d ∈ (BEFFunctionReader.ReadKernels bef words an argTypes
          kernel_table result_regs loc regs).2, d.sev = Sev.error) :=
  ⟨ReadKernels_erase, ReadKernels_diags⟩

/-- C5 witness: at a concrete run that does produce a diagnostic - an
undefined register used by the return operation - the diagnostic is an
error, as the theorem states. -/
theorem claim5_witness :
    (⟨Sev.error, "Using an undefined register in return op."⟩ : Diag).sev =
      Sev.error :=
  claim5_amended.2 BEFFile.empty [] (BEFReader.mk0 []) [] [] [0] Loc.origin
    [⟨MType.noneT, 0, [], none⟩]
    ⟨Sev.error, "Using an undefined register in return op."⟩
    (List.mem_singleton_self
      (⟨Sev.error, "Using an undefined register in return op."⟩ : Diag))

/-- C5 counterexample to the original claim: a function body whose
single register declares 5 uses but is used at exactly one operand
position decodes successfully with an EMPTY diagnostic list - no
warning reports the mismatch. -/
theorem claim5_counterexample :
    regs5c = [⟨MType.noneT, 5, [], none⟩] ∧
    BEFFunctionReader.ReadKernels bef5c words5c (BEFReader.mk0 []) []
        ktable5c [] loc5c regs5c =
      (.ok ([⟨"k", loc5c, [], [], [MType.noneT], 0⟩,
             ⟨"k", loc5c, [⟨Value.res 0 0, MType.noneT⟩], [], [], 0⟩,
             ⟨"hex.return", loc5c, [], [], [], 0⟩],
            [⟨MType.noneT, 5, [0], some ⟨Value.res 0 0, MType.noneT⟩⟩],
            BEFReader.mk0 [], []), []) ∧
    (([⟨"k", loc5c, [], [], [MType.noneT], 0⟩,
       ⟨"k", loc5c, [⟨Value.res 0 0, MType.noneT⟩], [], [], 0⟩,
       ⟨"hex.return", loc5c, [], [], [], 0⟩] : List Op).map fun op =>
        op.operands.countP fun v => v.val = Value.res 0 0).sum = 1 :=
  ⟨rfl, rfl, rfl⟩

lemma Value.before_mono {n m : Nat} (h : n ≤ m) :
    ∀ v, Value.before n v = true → Value.before m v = true
  | .arg i, _ => rfl
  | .res j k, hv => by
    simp only [Value.before, decide_eq_true_eq] at hv ⊢
    omega

lemma regsBefore_mono {n m : Nat} (h : n ≤ m) (regs : List RegisterInfo)
    (hr : regsBefore n regs) : regsBefore m regs :=
  fun r hrm t ht => Value.before_mono h _ (hr r hrm t ht)

lemma GetRegister_mem (regs : List RegisterInfo) (idx : Nat)
    (reg : RegisterInfo)
    (h : BEFFunctionReader.GetRegister regs idx = .ok reg) : reg ∈ regs := by
  unfold BEFFunctionReader.GetRegister at h
  cases hg : regs[idx]? with
  | some r =>
    simp only [hg] at h
    injection h with h1
    exact h1 ▸ List.getElem?_mem hg
  | none =>
    simp only [hg] at h
    exact Res.noConfusion h

lemma resolveArguments_sound (n : Nat) (regs : List RegisterInfo)
    (hr : regsBefore n regs) :
    ∀ idxs ts ds, BEFFunctionReader.resolveArguments regs idxs = (.ok ts, ds) →
      ∀ t ∈ ts, Value.before n t.val = true := by
  intro idxs
  induction idxs with
  | nil =>
    intro ts ds h t ht
    injection h with h1 h2
    injection h1 with h1
    rw [← h1] at ht
    exact absurd ht (by simp)
  | cons idx rest ih =>
    intro ts ds h t ht
    cases hg : BEFFunctionReader.GetRegister regs idx with
    | thrown => simp only [BEFFunctionReader.resolveArguments, hg] at h; exact Res.noConfusion (congrArg Prod.fst h)
    | fail => simp only [BEFFunctionReader.resolveArguments, hg] at h; exact Res.noConfusion (congrArg Prod.fst h)
    | ok reg =>
      cases hv : reg.value with
      | none => simp only [BEFFunctionReader.resolveArguments, hg, hv] at h; exact Res.noConfusion (congrArg Prod.fst h)
      | some v =>
        simp only [BEFFunctionReader.resolveArguments, hg, hv] at h
        cases hrec : BEFFunctionReader.resolveArguments regs rest with
        | mk rres rds =>
          cases rres with
          | ok vs =>
            simp only [hrec] at h
            injection h with h1 h2
            injection h1 with h1
            rw [← h1] at ht
            rcases List.mem_cons.mp ht with rfl | htr
            · exact hr reg (GetRegister_mem regs idx reg hg) t hv
            · exact ih vs rds hrec t htr
          | fail => simp only [hrec] at h; exact Res.noConfusion (congrArg Prod.fst h)
          | thrown => simp only [hrec] at h; exact Res.noConfusion (congrArg Prod.fst h)

lemma AddDefinition_sound (n : Nat) (regs : List RegisterInfo)
    (value : TValue) (idx : Nat) (regs1 : List RegisterInfo) (ds : List Diag)
    (hv : Value.before n value.val = true) (hr : regsBefore n regs)
    (h : BEFFunctionReader.AddDefinition regs value idx = (.ok regs1, ds)) :
    regsBefore n regs1 := by
  unfold BEFFunctionReader.AddDefinition at h
  cases hg : BEFFunctionReader.GetRegister regs idx with
  | thrown => simp only [hg] at h; exact Res.noConfusion (congrArg Prod.fst h)
  | fail => simp only [hg] at h; exact Res.noConfusion (congrArg Prod.fst h)
  | ok reg =>
    simp only [hg] at h
    by_cases hs : reg.value.isSome
    · rw [if_pos hs] at h
      exact absurd (congrArg Prod.fst h) (by simp)
    · rw [if_neg hs] at h
      split at h
      · injection h with h1 h2
        injection h1 with h1
        intro r hrm t ht
        rcases List.mem_or_eq_of_mem_set (h1 ▸ hrm) with hro | rfl
        · exact hr r hro t ht
        · injection ht with ht
          exact ht ▸ hv
      · exact absurd (congrArg Prod.fst h) (by simp)

lemma setUsedbys_sound (n : Nat) (regs : List RegisterInfo) (idx : Nat)
    (ub : List Nat) (hr : regsBefore n regs) :
    regsBefore n (BEFFunctionReader.setUsedbys regs idx ub) := by
  unfold BEFFunctionReader.setUsedbys
  cases hg : regs[idx]? with
  | none => exact hr
  | some reg =>
    intro r hrm t ht
    rcases List.mem_or_eq_of_mem_set hrm with hro | rfl
    · exact hr r hro t ht
    · exact hr reg (List.getElem?_mem hg) t ht

lemma defineResults_sound (kernel : BEFKernel) (opId : Nat) :
    ∀ results regs tys i eo regs1 ds,
      regsBefore (opId + 1) regs →
      BEFFunctionReader.defineResults kernel opId regs results tys i eo =
        (.ok regs1, ds) →
      regsBefore (opId + 1) regs1 := by
  intro results
  induction results with
  | nil =>
    intro regs tys i eo regs1 ds hr h
    injection h with h1 h2
    injection h1 with h1
    exact h1 ▸ hr
  | cons ridx rest ih =>
    intro regs tys i eo regs1 ds hr h
    simp only [BEFFunctionReader.defineResults] at h
    cases ha : BEFFunctionReader.AddDefinition regs
        ⟨.res opId i, tys.getD i .noneT⟩ ridx with
    | mk ares ads =>
      cases ares with
      | ok regsA =>
        simp only [ha] at h
        have hA : regsBefore (opId + 1) regsA :=
          AddDefinition_sound (opId + 1) regs _ ridx regsA ads
            (by simp [Value.before]) hr ha
        have hS := setUsedbys_sound (opId + 1) regsA ridx
          (kernel.GetKernelEntries eo (kernel.num_used_bys i)) hA
        cases hrec : BEFFunctionReader.defineResults kernel opId
            (BEFFunctionReader.setUsedbys regsA ridx
              (kernel.GetKernelEntries eo (kernel.num_used_bys i)))
            rest tys (i + 1) (eo + kernel.num_used_bys i) with
        | mk rres rds =>
          cases rres with
          | ok regsB =>
            simp only [hrec] at h
            injection h with h1 h2
            injection h1 with h1
            exact h1 ▸ ih _ _ _ _ _ _ hS hrec
          | fail => simp only [hrec] at h; exact Res.noConfusion (congrArg Prod.fst h)
          | thrown => simp only [hrec] at h; exact Res.noConfusion (congrArg Prod.fst h)
      | fail => simp only [ha] at h; exact Res.noConfusion (congrArg Prod.fst h)
      | thrown => simp only [ha] at h; exact Res.noConfusion (congrArg Prod.fst h)

lemma ReadKernel_sound (bef : BEFFile) (words : List Nat) (offset : Nat)
    (an : BEFReader) (regs : List RegisterInfo) (opId : Nat) (op : Op)
    (regs1 : List RegisterInfo) (an1 : BEFReader) (refs : Option (List Nat))
    (ds : List Diag) (hr : regsBefore opId regs)
    (h : BEFFunctionReader.ReadKernel bef words offset an regs opId =
      (.ok (op, regs1, an1, refs), ds)) :
    (∀ t ∈ op.operands, Value.before opId t.val = true) ∧
      regsBefore (opId + 1) regs1 := by
  unfold BEFFunctionReader.ReadKernel at h
  simp only [] at h
  repeat' split at h
  all_goals try exact Res.noConfusion (congrArg Prod.fst h)
  all_goals
    (simp only [Prod.mk.injEq, Res.ok.injEq] at h
     obtain ⟨⟨hop, hregs, han, href⟩, hds⟩ := h
     subst hop
     subst hregs
     refine ⟨fun t ht => resolveArguments_sound opId regs hr _ _ _
       (by assumption) t ht, ?_⟩
     exact defineResults_sound _ opId _ _ _ _ _ _ _
       (regsBefore_mono (Nat.le_succ opId) regs hr) (by assumption))

lemma kernelLoop_sound (bef : BEFFile) (words : List Nat) :
    ∀ entries (an : BEFReader) (regs : List RegisterInfo) (opId : Nat)
      ops regs2 an2 refs ds,
      regsBefore opId regs →
      BEFFunctionReader.kernelLoop bef words entries an regs opId =
        (.ok (ops, regs2, an2, refs), ds) →
      (∀ i (hi : i < ops.length),
        ∀ t ∈ (ops.get ⟨i, hi⟩).operands,
          Value.before (opId + i) t.val = true) ∧
        regsBefore (opId + ops.length) regs2 := by
  intro entries
  induction entries with
  | nil =>
    intro an regs opId ops regs2 an2 refs ds hr h
    simp only [BEFFunctionReader.kernelLoop, Prod.mk.injEq,
      Res.ok.injEq] at h
    obtain ⟨⟨hops, hregs2, han2, href⟩, hds⟩ := h
    subst hops
    subst hregs2
    exact ⟨fun i hi => absurd hi (Nat.not_lt_zero i), hr⟩
  | cons e rest ih =>
    intro an regs opId ops regs2 an2 refs ds hr h
    cases hk : BEFFunctionReader.ReadKernel bef words e.offset an regs
        opId with
    | mk kres kds =>
      cases kres with
      | fail =>
        simp only [BEFFunctionReader.kernelLoop, hk] at h
        exact Res.noConfusion (congrArg Prod.fst h)
      | thrown =>
        simp only [BEFFunctionReader.kernelLoop, hk] at h
        exact Res.noConfusion (congrArg Prod.fst h)
      | ok q =>
        obtain ⟨op, regs1, an1, refOpt⟩ := q
        simp only [BEFFunctionReader.kernelLoop, hk] at h
        cases hl : BEFFunctionReader.kernelLoop bef words rest an1 regs1
            (opId + 1) with
        | mk lres lds =>
          cases lres with
          | fail =>
            simp only [hl] at h
            exact Res.noConfusion (congrArg Prod.fst h)
          | thrown =>
            simp only [hl] at h
            exact Res.noConfusion (congrArg Prod.fst h)
          | ok q2 =>
            obtain ⟨opsR, regs2R, an2R, refsR⟩ := q2
            simp only [hl, Prod.mk.injEq, Res.ok.injEq] at h
            obtain ⟨⟨hops, hregs2, han2, href⟩, hds⟩ := h
            subst hops
            subst hregs2
            have hK := ReadKernel_sound bef words e.offset an regs opId op
              regs1 an1 refOpt kds hr hk
            have hL := ih an1 regs1 (opId + 1) opsR regs2R an2R refsR lds
              hK.2 hl
            constructor
            · intro i hi t ht
              match i, hi with
              | 0, hi => exact hK.1 t ht
              | i + 1, hi =>
                rw [show opId + (i + 1) = opId + 1 + i by omega]
                exact hL.1 i (by simpa using hi) t ht
            · rw [show opId + (op :: opsR).length = opId + 1 + opsR.length
                by simp; omega]
              exact hL.2

lemma pseudoDefs_sound (n : Nat) (entry_args : List MType) :
    ∀ results regs i regs1 ds,
      regsBefore n regs →
      BEFFunctionReader.pseudoDefs entry_args regs results i =
        (.ok regs1, ds) →
      regsBefore n regs1 := by
  intro results
  induction results with
  | nil =>
    intro regs i regs1 ds hr h
    injection h with h1 h2
    injection h1 with h1
    exact h1 ▸ hr
  | cons ridx rest ih =>
    intro regs i regs1 ds hr h
    simp only [BEFFunctionReader.pseudoDefs] at h
    cases ha : BEFFunctionReader.AddDefinition regs
        ⟨.arg i, entry_args.getD i .noneT⟩ ridx with
    | mk ares ads =>
      cases ares with
      | ok regsA =>
        simp only [ha] at h
        have hA : regsBefore n regsA :=
          AddDefinition_sound n regs ⟨.arg i, entry_args.getD i .noneT⟩
            ridx regsA ads rfl hr ha
        cases hrec : BEFFunctionReader.pseudoDefs entry_args regsA rest
            (i + 1) with
        | mk rres rds =>
          cases rres with
          | ok regsB =>
            simp only [hrec] at h
            injection h with h1 h2
            injection h1 with h1
            exact h1 ▸ ih _ _ _ _ hA hrec
          | fail => simp only [hrec] at h; exact Res.noConfusion (congrArg Prod.fst h)
          | thrown => simp only [hrec] at h; exact Res.noConfusion (congrArg Prod.fst h)
      | fail => simp only [ha] at h; exact Res.noConfusion (congrArg Prod.fst h)
      | thrown => simp only [ha] at h; exact Res.noConfusion (congrArg Prod.fst h)

lemma pseudoUsedbys_sound (n : Nat) (kernel : BEFKernel) :
    ∀ results regs i eo,
      regsBefore n regs →
      regsBefore n (BEFFunctionReader.pseudoUsedbys kernel regs results i eo) := by
  intro results
  induction results with
  | nil => intro regs i eo hr; exact hr
  | cons ridx rest ih =>
    intro regs i eo hr
    exact ih _ _ _ (setUsedbys_sound n regs ridx _ hr)

lemma ReadArgumentsPseudoKernel_sound (n : Nat) (words : List Nat)
    (entry_args : List MType) (regs regs1 : List RegisterInfo)
    (ds : List Diag) (hr : regsBefore n regs)
    (h : BEFFunctionReader.ReadArgumentsPseudoKernel words entry_args regs =
      (.ok regs1, ds)) : regsBefore n regs1 := by
  unfold BEFFunctionReader.ReadArgumentsPseudoKernel at h
  simp only [] at h
  split at h
  · exact Res.noConfusion (congrArg Prod.fst h)
  · split at h
    · injection h with h1 h2
      injection h1 with h1
      exact h1 ▸ pseudoUsedbys_sound n _ _ _ _ _
        (pseudoDefs_sound n entry_args _ _ _ _ _ hr (by assumption))
    · exact Res.noConfusion (congrArg Prod.fst h)
    · exact Res.noConfusion (congrArg Prod.fst h)

lemma resolveReturnOperands_sound (n : Nat) (regs : List RegisterInfo)
    (hr : regsBefore n regs) :
    ∀ idxs ts ds,
      BEFFunctionReader.resolveReturnOperands regs idxs = (.ok ts, ds) →
      ∀ t ∈ ts, Value.before n t.val = true := by
  intro idxs
  induction idxs with
  | nil =>
    intro ts ds h t ht
    injection h with h1 h2
    injection h1 with h1
    rw [← h1] at ht
    exact absurd ht (by simp)
  | cons idx rest ih =>
    intro ts ds h t ht
    cases hg : BEFFunctionReader.GetRegister regs idx with
    | thrown =>
      simp only [BEFFunctionReader.resolveReturnOperands, hg] at h
      exact Res.noConfusion (congrArg Prod.fst h)
    | fail =>
      simp only [BEFFunctionReader.resolveReturnOperands, hg] at h
      exact Res.noConfusion (congrArg Prod.fst h)
    | ok reg =>
      cases hv : reg.value with
      | none =>
        simp only [BEFFunctionReader.resolveReturnOperands, hg, hv] at h
        exact Res.noConfusion (congrArg Prod.fst h)
      | some v =>
        simp only [BEFFunctionReader.resolveReturnOperands, hg, hv] at h
        cases hrec : BEFFunctionReader.resolveReturnOperands regs rest with
        | mk rres rds =>
          cases rres with
          | ok vs =>
            simp only [hrec] at h
            injection h with h1 h2
            injection h1 with h1
            rw [← h1] at ht
            rcases List.mem_cons.mp ht with rfl | htr
            · exact hr reg (GetRegister_mem regs idx reg hg) t hv
            · exact ih vs rds hrec t htr
          | fail => simp only [hrec] at h; exact Res.noConfusion (congrArg Prod.fst h)
          | thrown => simp only [hrec] at h; exact Res.noConfusion (congrArg Prod.fst h)

lemma pseudoExpr_sound (n : Nat) (words : List Nat) (argTypes : List MType)
    (an0 : BEFReader) (kernel_table : List KernelTableEntry)
    (regs : List RegisterInfo)
    (res : Res (BEFReader × List RegisterInfo × List KernelTableEntry))
    (ds : List Diag) (hr : regsBefore n regs)
    (h : (if argTypes.isEmpty then
            ((.ok (an0, regs, kernel_table) :
              Res (BEFReader × List RegisterInfo × List KernelTableEntry)),
             ([] : List Diag))
          else
            match BEFFunctionReader.ReadArgumentsPseudoKernel words argTypes
                regs with
            | (.ok regs1, ds) =>
              (.ok
                (match an0.ReadByte with
                 | some (_, a) => a
                 | none => an0, regs1, kernel_table.drop 1), ds)
            | (.fail, ds) =>
              (.fail, ds ++ [⟨.error, "Failed to read pseudo."⟩])
            | (.thrown, ds) => (.thrown, ds)) = (res, ds)) :
    ∀ an1 regs1 entries, res = .ok (an1, regs1, entries) →
      regsBefore n regs1 := by
  intro an1 regs1 entries hres
  subst hres
  split at h
  · injection h with h1 h2
    injection h1 with h1
    injection h1 with ha h1
    injection h1 with hb hc
    exact hb ▸ hr
  · split at h
    · injection h with h1 h2
      injection h1 with h1
      injection h1 with ha h1
      injection h1 with hb hc
      exact hb ▸ ReadArgumentsPseudoKernel_sound n words argTypes regs _ _
        hr (by assumption)
    · exact Res.noConfusion (congrArg Prod.fst h)
    · exact Res.noConfusion (congrArg Prod.fst h)

lemma ReadKernels_sound (bef : BEFFile) (words : List Nat) (an : BEFReader)
    (argTypes : List MType) (kernel_table : List KernelTableEntry)
    (result_regs : List Nat) (loc : Loc) (regs : List RegisterInfo)
    (ops : List Op) (regs2 : List RegisterInfo) (an2 : BEFReader)
    (refs : List (Nat × List Nat)) (ds : List Diag)
    (hr : regsBefore 0 regs)
    (h : BEFFunctionReader.ReadKernels bef words an argTypes kernel_table
        result_regs loc regs = (.ok (ops, regs2, an2, refs), ds)) :
    ∀ i (hi : i < ops.length),
      ∀ t ∈ (ops.get ⟨i, hi⟩).operands, Value.before i t.val = true := by
  unfold BEFFunctionReader.ReadKernels at h
  simp only [] at h
  cases hci : an.ReadInt with
  | none =>
    simp only [hci] at h
    by_cases hae : argTypes.isEmpty = true
    · rw [if_pos hae] at h
      try simp only [] at h
      cases hkl : BEFFunctionReader.kernelLoop bef words kernel_table an regs 0 with
      | mk lres lds =>
        cases lres with
        | fail => simp only [hkl] at h; exact Res.noConfusion (congrArg Prod.fst h)
        | thrown => simp only [hkl] at h; exact Res.noConfusion (congrArg Prod.fst h)
        | ok q =>
          obtain ⟨opsB, regs2B, an2B, refsB⟩ := q
          simp only [hkl] at h
          cases hro : BEFFunctionReader.resolveReturnOperands regs2B result_regs with
          | mk rres rds2 =>
            cases rres with
            | fail => simp only [hro] at h; exact Res.noConfusion (congrArg Prod.fst h)
            | thrown => simp only [hro] at h; exact Res.noConfusion (congrArg Prod.fst h)
            | ok rvals =>
              simp only [hro, Prod.mk.injEq, Res.ok.injEq] at h
              obtain ⟨⟨hops, hregs2, han2, href⟩, hds⟩ := h
              subst hops
              have hKL := kernelLoop_sound bef words kernel_table an regs 0
                opsB regs2B an2B refsB lds hr hkl
              have hRet := resolveReturnOperands_sound (0 + opsB.length) regs2B
                hKL.2 result_regs rvals rds2 hro
              intro i hi t ht
              by_cases hilt : i < opsB.length
              · rw [List.get_eq_getElem, List.getElem_append_left hilt] at ht
                have hB := hKL.1 i hilt t (by rw [List.get_eq_getElem]; exact ht)
                rwa [Nat.zero_add] at hB
              · have hlen : i = opsB.length := by
                  have h2 := hi
                  simp only [List.length_append, List.length_cons,
                    List.length_nil] at h2
                  omega
                subst hlen
                rw [List.get_of_append rfl rfl] at ht
                have hB := hRet t ht
                rwa [Nat.zero_add] at hB
    · rw [if_neg hae] at h
      cases hps0 : BEFFunctionReader.ReadArgumentsPseudoKernel words argTypes regs with
      | mk pres pds =>
        cases pres with
        | fail => simp only [hps0] at h; exact Res.noConfusion (congrArg Prod.fst h)
        | thrown => simp only [hps0] at h; exact Res.noConfusion (congrArg Prod.fst h)
        | ok regsP =>
          simp only [hps0] at h
          have hP : regsBefore 0 regsP :=
            ReadArgumentsPseudoKernel_sound 0 words argTypes regs regsP pds hr hps0
          cases hb : an.ReadByte with
          | none =>
            simp only [hb] at h
            cases hkl : BEFFunctionReader.kernelLoop bef words (kernel_table.drop 1) an regsP 0 with
            | mk lres lds =>
              cases lres with
              | fail => simp only [hkl] at h; exact Res.noConfusion (congrArg Prod.fst h)
              | thrown => simp only [hkl] at h; exact Res.noConfusion (congrArg Prod.fst h)
              | ok q =>
                obtain ⟨opsB, regs2B, an2B, refsB⟩ := q
                simp only [hkl] at h
                cases hro : BEFFunctionReader.resolveReturnOperands regs2B result_regs with
                | mk rres rds2 =>
                  cases rres with
                  | fail => simp only [hro] at h; exact Res.noConfusion (congrArg Prod.fst h)
                  | thrown => simp only [hro] at h; exact Res.noConfusion (congrArg Prod.fst h)
                  | ok rvals =>
                    simp only [hro, Prod.mk.injEq, Res.ok.injEq] at h
                    obtain ⟨⟨hops, hregs2, han2, href⟩, hds⟩ := h
                    subst hops
                    have hKL := kernelLoop_sound bef words (kernel_table.drop 1) an regsP 0
                      opsB regs2B an2B refsB lds hP hkl
                    have hRet := resolveReturnOperands_sound (0 + opsB.length) regs2B
                      hKL.2 result_regs rvals rds2 hro
                    intro i hi t ht
                    by_cases hilt : i < opsB.length
                    · rw [List.get_eq_getElem, List.getElem_append_left hilt] at ht
                      have hB := hKL.1 i hilt t (by rw [List.get_eq_getElem]; exact ht)
                      rwa [Nat.zero_add] at hB
                    · have hlen : i = opsB.length := by
                        have h2 := hi
                        simp only [List.length_append, List.length_cons,
                          List.length_nil] at h2
                        omega
                      subst hlen
                      rw [List.get_of_append rfl rfl] at ht
                      have hB := hRet t ht
                      rwa [Nat.zero_add] at hB
          | some qb =>
            obtain ⟨bb, anb⟩ := qb
            simp only [hb] at h
            cases hkl : BEFFunctionReader.kernelLoop bef words (kernel_table.drop 1) anb regsP 0 with
            | mk lres lds =>
              cases lres with
              | fail => simp only [hkl] at h; exact Res.noConfusion (congrArg Prod.fst h)
              | thrown => simp only [hkl] at h; exact Res.noConfusion (congrArg Prod.fst h)
              | ok q =>
                obtain ⟨opsB, regs2B, an2B, refsB⟩ := q
                simp only [hkl] at h
                cases hro : BEFFunctionReader.resolveReturnOperands regs2B result_regs with
                | mk rres rds2 =>
                  cases rres with
                  | fail => simp only [hro] at h; exact Res.noConfusion (congrArg Prod.fst h)
                  | thrown => simp only [hro] at h; exact Res.noConfusion (congrArg Prod.fst h)
                  | ok rvals =>
                    simp only [hro, Prod.mk.injEq, Res.ok.injEq] at h
                    obtain ⟨⟨hops, hregs2, han2, href⟩, hds⟩ := h
                    subst hops
                    have hKL := kernelLoop_sound bef words (kernel_table.drop 1) anb regsP 0
                      opsB regs2B an2B refsB lds hP hkl
                    have hRet := resolveReturnOperands_sound (0 + opsB.length) regs2B
                      hKL.2 result_regs rvals rds2 hro
                    intro i hi t ht
                    by_cases hilt : i < opsB.length
                    · rw [List.get_eq_getElem, List.getElem_append_left hilt] at ht
                      have hB := hKL.1 i hilt t (by rw [List.get_eq_getElem]; exact ht)
                      rwa [Nat.zero_add] at hB
                    · have hlen : i = opsB.length := by
                        have h2 := hi
                        simp only [List.length_append, List.length_cons,
                          List.length_nil] at h2
                        omega
                      subst hlen
                      rw [List.get_of_append rfl rfl] at ht
                      have hB := hRet t ht
                      rwa [Nat.zero_add] at hB
  | some p =>
    obtain ⟨n0, anx⟩ := p
    simp only [hci] at h
    by_cases hn : n0 = kernel_table.length
    · rw [if_pos hn] at h
      try simp only [] at h
      by_cases hae : argTypes.isEmpty = true
      · rw [if_pos hae] at h
        try simp only [] at h
        cases hkl : BEFFunctionReader.kernelLoop bef words kernel_table anx regs 0 with
        | mk lres lds =>
          cases lres with
          | fail => simp only [hkl] at h; exact Res.noConfusion (congrArg Prod.fst h)
          | thrown => simp only [hkl] at h; exact Res.noConfusion (congrArg Prod.fst h)
          | ok q =>
            obtain ⟨opsB, regs2B, an2B, refsB⟩ := q
            simp only [hkl] at h
            cases hro : BEFFunctionReader.resolveReturnOperands regs2B result_regs with
            | mk rres rds2 =>
              cases rres with
              | fail => simp only [hro] at h; exact Res.noConfusion (congrArg Prod.fst h)
              | thrown => simp only [hro] at h; exact Res.noConfusion (congrArg Prod.fst h)
              | ok rvals =>
                simp only [hro, Prod.mk.injEq, Res.ok.injEq] at h
                obtain ⟨⟨hops, hregs2, han2, href⟩, hds⟩ := h
                subst hops
                have hKL := kernelLoop_sound bef words kernel_table anx regs 0
                  opsB regs2B an2B refsB lds hr hkl
                have hRet := resolveReturnOperands_sound (0 + opsB.length) regs2B
                  hKL.2 result_regs rvals rds2 hro
                intro i hi t ht
                by_cases hilt : i < opsB.length
                · rw [List.get_eq_getElem, List.getElem_append_left hilt] at ht
                  have hB := hKL.1 i hilt t (by rw [List.get_eq_getElem]; exact ht)
                  rwa [Nat.zero_add] at hB
                · have hlen : i = opsB.length := by
                    have h2 := hi
                    simp only [List.length_append, List.length_cons,
                      List.length_nil] at h2
                    omega
                  subst hlen
                  rw [List.get_of_append rfl rfl] at ht
                  have hB := hRet t ht
                  rwa [Nat.zero_add] at hB
      · rw [if_neg hae] at h
        cases hps0 : BEFFunctionReader.ReadArgumentsPseudoKernel words argTypes regs with
        | mk pres pds =>
          cases pres with
          | fail => simp only [hps0] at h; exact Res.noConfusion (congrArg Prod.fst h)
          | thrown => simp only [hps0] at h; exact Res.noConfusion (congrArg Prod.fst h)
          | ok regsP =>
            simp only [hps0] at h
            have hP : regsBefore 0 regsP :=
              ReadArgumentsPseudoKernel_sound 0 words argTypes regs regsP pds hr hps0
            cases hb : anx.ReadByte with
            | none =>
              simp only [hb] at h
              cases hkl : BEFFunctionReader.kernelLoop bef words (kernel_table.drop 1) anx regsP 0 with
              | mk lres lds =>
                cases lres with
                | fail => simp only [hkl] at h; exact Res.noConfusion (congrArg Prod.fst h)
                | thrown => simp only [hkl] at h; exact Res.noConfusion (congrArg Prod.fst h)
                | ok q =>
                  obtain ⟨opsB, regs2B, an2B, refsB⟩ := q
                  simp only [hkl] at h
                  cases hro : BEFFunctionReader.resolveReturnOperands regs2B result_regs with
                  | mk rres rds2 =>
                    cases rres with
                    | fail => simp only [hro] at h; exact Res.noConfusion (congrArg Prod.fst h)
                    | thrown => simp only [hro] at h; exact Res.noConfusion (congrArg Prod.fst h)
                    | ok rvals =>
                      simp only [hro, Prod.mk.injEq, Res.ok.injEq] at h
                      obtain ⟨⟨hops, hregs2, han2, href⟩, hds⟩ := h
                      subst hops
                      have hKL := kernelLoop_sound bef words (kernel_table.drop 1) anx regsP 0
                        opsB regs2B an2B refsB lds hP hkl
                      have hRet := resolveReturnOperands_sound (0 + opsB.length) regs2B
                        hKL.2 result_regs rvals rds2 hro
                      intro i hi t ht
                      by_cases hilt : i < opsB.length
                      · rw [List.get_eq_getElem, List.getElem_append_left hilt] at ht
                        have hB := hKL.1 i hilt t (by rw [List.get_eq_getElem]; exact ht)
                        rwa [Nat.zero_add] at hB
                      · have hlen : i = opsB.length := by
                          have h2 := hi
                          simp only [List.length_append, List.length_cons,
                            List.length_nil] at h2
                          omega
                        subst hlen
                        rw [List.get_of_append rfl rfl] at ht
                        have hB := hRet t ht
                        rwa [Nat.zero_add] at hB
            | some qb =>
              obtain ⟨bb, anb⟩ := qb
              simp only [hb] at h
              cases hkl : BEFFunctionReader.kernelLoop bef words (kernel_table.drop 1) anb regsP 0 with
              | mk lres lds =>
                cases lres with
                | fail => simp only [hkl] at h; exact Res.noConfusion (congrArg Prod.fst h)
                | thrown => simp only [hkl] at h; exact Res.noConfusion (congrArg Prod.fst h)
                | ok q =>
                  obtain ⟨opsB, regs2B, an2B, refsB⟩ := q
                  simp only [hkl] at h
                  cases hro : BEFFunctionReader.resolveReturnOperands regs2B result_regs with
                  | mk rres rds2 =>
                    cases rres with
                    | fail => simp only [hro] at h; exact Res.noConfusion (congrArg Prod.fst h)
                    | thrown => simp only [hro] at h; exact Res.noConfusion (congrArg Prod.fst h)
                    | ok rvals =>
                      simp only [hro, Prod.mk.injEq, Res.ok.injEq] at h
                      obtain ⟨⟨hops, hregs2, han2, href⟩, hds⟩ := h
                      subst hops
                      have hKL := kernelLoop_sound bef words (kernel_table.drop 1) anb regsP 0
                        opsB regs2B an2B refsB lds hP hkl
                      have hRet := resolveReturnOperands_sound (0 + opsB.length) regs2B
                        hKL.2 result_regs rvals rds2 hro
                      intro i hi t ht
                      by_cases hilt : i < opsB.length
                      · rw [List.get_eq_getElem, List.getElem_append_left hilt] at ht
                        have hB := hKL.1 i hilt t (by rw [List.get_eq_getElem]; exact ht)
                        rwa [Nat.zero_add] at hB
                      · have hlen : i = opsB.length := by
                          have h2 := hi
                          simp only [List.length_append, List.length_cons,
                            List.length_nil] at h2
                          omega
                        subst hlen
                        rw [List.get_of_append rfl rfl] at ht
                        have hB := hRet t ht
                        rwa [Nat.zero_add] at hB
    · rw [if_neg hn] at h
      try simp only [] at h
      exact Res.noConfusion (congrArg Prod.fst h)

lemma AddDefinition_redef (regs : List RegisterInfo) (idx : Nat)
    (reg : RegisterInfo) (value : TValue) (hg : regs[idx]? = some reg)
    (hv : reg.value.isSome = true) :
    BEFFunctionReader.AddDefinition regs value idx =
      (.fail, [⟨Sev.error, "Redefinition of registers"⟩]) := by
  unfold BEFFunctionReader.AddDefinition BEFFunctionReader.GetRegister
  simp only [hg]
  rw [if_pos hv]

lemma resolveArguments_undef (regs : List RegisterInfo) :
    ∀ idxs idx reg, idx ∈ idxs → regs[idx]? = some reg →
      reg.value = none →
      ∀ ts ds, BEFFunctionReader.resolveArguments regs idxs ≠ (.ok ts, ds) := by
  intro idxs
  induction idxs with
  | nil =>
    intro idx reg hmem
    exact absurd hmem (List.not_mem_nil idx)
  | cons a rest ih =>
    intro idx reg hmem hg hnone ts ds heq
    rcases List.mem_cons.mp hmem with rfl | hmr
    · simp only [BEFFunctionReader.resolveArguments,
        BEFFunctionReader.GetRegister, hg, hnone] at heq
      exact Res.noConfusion (congrArg Prod.fst heq)
    · cases hga : BEFFunctionReader.GetRegister regs a with
      | thrown =>
        simp only [BEFFunctionReader.resolveArguments, hga] at heq
        exact Res.noConfusion (congrArg Prod.fst heq)
      | fail =>
        simp only [BEFFunctionReader.resolveArguments, hga] at heq
        exact Res.noConfusion (congrArg Prod.fst heq)
      | ok regA =>
        cases hva : regA.value with
        | none =>
          simp only [BEFFunctionReader.resolveArguments, hga, hva] at heq
          exact Res.noConfusion (congrArg Prod.fst heq)
        | some v =>
          simp only [BEFFunctionReader.resolveArguments, hga, hva] at heq
          cases hrec : BEFFunctionReader.resolveArguments regs rest with
          | mk rres rds =>
            cases rres with
            | ok vs =>
              exact ih idx reg hmr hg hnone vs rds hrec
            | fail =>
              simp only [hrec] at heq
              exact Res.noConfusion (congrArg Prod.fst heq)
            | thrown =>
              simp only [hrec] at heq
              exact Res.noConfusion (congrArg Prod.fst heq)

/-- C1.  For every successfully decoded function body every operand of
the operation at block position i is a block argument or a result of
an operation at an earlier position j < i (given a register table
whose values are all still unset, as ReadRegisterTable produces it);
an operand register that holds no value yet makes the operand
resolution of the kernel fail; and a second definition of an already
defined register makes AddDefinition fail with the redefinition
error. -/
theorem claim1_theorem :
    (∀ (bef : BEFFile) (words : List Nat) (an : BEFReader)
        (argTypes : List MType) (kernel_table : List KernelTableEntry)
        (result_regs : List Nat) (loc : Loc) (regs : List RegisterInfo)
        ops regs2 an2 refs ds,
      regsBefore 0 regs →
      BEFFunctionReader.ReadKernels bef words an argTypes kernel_table
          result_regs loc regs = (.ok (ops, regs2, an2, refs), ds) →
      ∀ i (hi : i < ops.length),
        ∀ t ∈ (ops.get ⟨i, hi⟩).operands, Value.before i t.val = true) ∧
    (∀ (regs : List RegisterInfo) (idxs : List Nat) (idx : Nat)
        (reg : RegisterInfo), idx ∈ idxs → regs[idx]? = some reg →
      reg.value = none →
      ∀ ts ds, BEFFunctionReader.resolveArguments regs idxs ≠
        (.ok ts, ds)) ∧
    (∀ (regs : List RegisterInfo) (idx : Nat) (reg : RegisterInfo)
        (value : TValue), regs[idx]? = some reg → reg.value.isSome = true →
      BEFFunctionReader.AddDefinition regs value idx =
        (.fail, [⟨Sev.error, "Redefinition of registers"⟩])) :=
  ⟨fun bef words an argTypes kernel_table result_regs loc regs ops regs2 an2
      refs ds hr h =>
    ReadKernels_sound bef words an argTypes kernel_table result_regs loc
      regs ops regs2 an2 refs ds hr h,
   fun regs idxs idx reg hmem hg hnone =>
    resolveArguments_undef regs idxs idx reg hmem hg hnone,
   fun regs idx reg value hg hv => AddDefinition_redef regs idx reg value hg hv⟩

/-- C1 witness: on the concrete two kernel body the operand of the
operation at position 1 is the result of the operation at position 0;
resolving an operand whose register holds no value does not succeed;
and redefining the defined register 0 fails with the redefinition
error. -/
theorem claim1_witness :
    Value.before 1 (Value.res 0 0) = true ∧
    BEFFunctionReader.resolveArguments [⟨MType.noneT, 0, [], none⟩] [0] ≠
      (.ok [], []) ∧
    BEFFunctionReader.AddDefinition
        [⟨MType.noneT, 0, [], some ⟨Value.arg 0, MType.noneT⟩⟩]
        ⟨Value.res 0 0, MType.noneT⟩ 0 =
      (.fail, [⟨Sev.error, "Redefinition of registers"⟩]) :=
  ⟨claim1_theorem.1 bef5c words5c (BEFReader.mk0 []) [] ktable5c [] loc5c
      regs5c
      [⟨"k", loc5c, [], [], [MType.noneT], 0⟩,
       ⟨"k", loc5c, [⟨Value.res 0 0, MType.noneT⟩], [], [], 0⟩,
       ⟨"hex.return", loc5c, [], [], [], 0⟩]
      [⟨MType.noneT, 5, [0], some ⟨Value.res 0 0, MType.noneT⟩⟩]
      (BEFReader.mk0 []) [] []
      (fun r hrm t ht => by
        rw [List.mem_singleton.mp hrm] at ht
        exact Option.noConfusion ht)
      rfl 1 (by decide) ⟨Value.res 0 0, MType.noneT⟩ (by decide),
   claim1_theorem.2.1 [⟨MType.noneT, 0, [], none⟩] [0] 0
      ⟨MType.noneT, 0, [], none⟩
      (List.mem_singleton_self 0) rfl rfl [] [],
   claim1_theorem.2.2 [⟨MType.noneT, 0, [], some ⟨Value.arg 0, MType.noneT⟩⟩]
      0 ⟨MType.noneT, 0, [], some ⟨Value.arg 0, MType.noneT⟩⟩
      ⟨Value.res 0 0, MType.noneT⟩ rfl rfl⟩

lemma getElem?_some_lt {α : Type} (l : List α) (i : Nat) (a : α)
    (h : l[i]? = some a) : i < l.length := by
  by_contra hc
  rw [List.getElem?_eq_none (by omega)] at h
  exact Option.noConfusion h

lemma takeRegions_char :
    ∀ (idxs : List Nat) (regions : List (Loc × Option MRegion)) rs regions2,
      BEFToMLIRConverter.takeRegions regions idxs = .ok (rs, regions2) →
      rs.length = idxs.length ∧
      idxs.Nodup ∧
      (∀ l, l ∉ idxs → regions2[l]? = regions[l]?) ∧
      (∀ k (hk : k < idxs.length) (hr : k < rs.length), ∃ loc,
        regions[idxs.get ⟨k, hk⟩]? = some (loc, some (rs.get ⟨k, hr⟩)) ∧
        regions2[idxs.get ⟨k, hk⟩]? = some (loc, none)) := by
  intro idxs
  induction idxs with
  | nil =>
    intro regions rs regions2 h
    injection h with h1
    injection h1 with h1 h2
    subst h1
    subst h2
    exact ⟨rfl, List.nodup_nil, fun l _ => rfl,
      fun k hk => absurd hk (Nat.not_lt_zero k)⟩
  | cons j rest ih =>
    intro regions rs regions2 h
    simp only [BEFToMLIRConverter.takeRegions] at h
    cases hj : regions[j]? with
    | none =>
      simp only [hj] at h
      exact Res.noConfusion h
    | some p =>
      obtain ⟨loc, slot⟩ := p
      simp only [hj] at h
      cases slot with
      | none => exact Res.noConfusion h
      | some region =>
        cases hrec : BEFToMLIRConverter.takeRegions
            (regions.set j (loc, none)) rest with
        | ok q =>
          obtain ⟨rs1, regions1⟩ := q
          simp only [hrec] at h
          injection h with h1
          injection h1 with h1 h2
          subst h1
          subst h2
          obtain ⟨ihlen, ihnodup, ihunch, ihspec⟩ := ih _ _ _ hrec
          have hjl : j < regions.length := getElem?_some_lt _ _ _ hj
          have hnotmem : j ∉ rest := by
            intro hmem
            obtain ⟨⟨k, hk⟩, hget⟩ := List.mem_iff_get.mp hmem
            obtain ⟨loc2, hspec1, hspec2⟩ := ihspec k hk (ihlen ▸ hk)
            rw [hget, List.getElem?_set_self hjl] at hspec1
            injection hspec1 with hspec1
            injection hspec1 with ha hb
            exact Option.noConfusion hb
          refine ⟨by simp [ihlen], List.nodup_cons.mpr ⟨hnotmem, ihnodup⟩,
            ?_, ?_⟩
          · intro l hl
            have hlj : l ≠ j := fun hc => hl (hc ▸ List.mem_cons_self j rest)
            have hlr : l ∉ rest := fun hc => hl (List.mem_cons_of_mem j hc)
            rw [ihunch l hlr, List.getElem?_set_ne (Ne.symm hlj)]
          · intro k hk hr
            match k, hk, hr with
            | 0, hk, hr =>
              refine ⟨loc, hj, ?_⟩
              show regions1[j]? = some (loc, none)
              rw [ihunch j hnotmem, List.getElem?_set_self hjl]
            | k + 1, hk, hr =>
              have hk2 : k < rest.length := by
                simpa using hk
              have hr2 : k < rs1.length := ihlen ▸ hk2
              obtain ⟨loc2, hspec1, hspec2⟩ := ihspec k hk2 hr2
              have hne : rest.get ⟨k, hk2⟩ ≠ j := fun hc =>
                hnotmem (hc ▸ List.get_mem rest k hk2)
              refine ⟨loc2, ?_, ?_⟩
              · show regions[rest.get ⟨k, hk2⟩]? =
                  some (loc2, some (rs1.get ⟨k, hr2⟩))
                rw [← List.getElem?_set_ne (Ne.symm hne)]
                exact hspec1
              · show regions1[rest.get ⟨k, hk2⟩]? = some (loc2, none)
                exact hspec2
        | fail => simp only [hrec] at h; exact Res.noConfusion h
        | thrown => simp only [hrec] at h; exact Res.noConfusion h

lemma pass2Go_chain :
    ∀ (refs : List ((Nat × Nat) × List Nat)) regions acc assigns regions2,
      BEFToMLIRConverter.pass2Go refs regions acc = .ok (assigns, regions2) →
      ∃ pre, assigns = acc ++ pre ∧ chainOk regions refs pre regions2 := by
  intro refs
  induction refs with
  | nil =>
    intro regions acc assigns regions2 h
    injection h with h1
    injection h1 with h1 h2
    subst h1
    subst h2
    exact ⟨[], by simp, rfl, rfl⟩
  | cons r rest ih =>
    intro regions acc assigns regions2 h
    obtain ⟨opId, idxs⟩ := r
    simp only [BEFToMLIRConverter.pass2Go] at h
    cases ht : BEFToMLIRConverter.takeRegions regions idxs with
    | thrown => simp only [ht] at h; exact Res.noConfusion h
    | fail => simp only [ht] at h; exact Res.noConfusion h
    | ok q =>
      obtain ⟨rs, regions1⟩ := q
      simp only [ht] at h
      obtain ⟨pre1, hpre1, hchain1⟩ := ih _ _ _ _ h
      refine ⟨(opId, rs) :: pre1, ?_, rs, regions1, pre1, ht, rfl, hchain1⟩
      rw [hpre1]
      simp

lemma pass2Go_chain0 (refs : List ((Nat × Nat) × List Nat))
    (regions : List (Loc × Option MRegion))
    (assigns : List ((Nat × Nat) × List MRegion))
    (regions2 : List (Loc × Option MRegion))
    (h : BEFToMLIRConverter.pass2Go refs regions [] = .ok (assigns, regions2)) :
    chainOk regions refs assigns regions2 := by
  obtain ⟨pre, hpre, hch⟩ := pass2Go_chain refs regions [] assigns regions2 h
  rw [List.nil_append] at hpre
  exact hpre ▸ hch

lemma ResolveFunctions_ok_resolved (bef : BEFFile)
    (regions : List (Loc × Option MRegion))
    (refs : List ((Nat × Nat) × List Nat)) (funcs : List FuncOp)
    (assigns : List ((Nat × Nat) × List MRegion))
    (regions2 : List (Loc × Option MRegion)) (ds : List Diag)
    (h : BEFToMLIRConverter.ResolveFunctions bef regions refs =
      (.ok (funcs, assigns, regions2), ds)) :
    ∀ p ∈ regions2, p.2 = none := by
  unfold BEFToMLIRConverter.ResolveFunctions at h
  cases hp1 : BEFToMLIRConverter.pass1Go bef bef.function_index 0 regions
      [] with
  | thrown => simp only [hp1] at h; exact Res.noConfusion (congrArg Prod.fst h)
  | fail => simp only [hp1] at h; exact Res.noConfusion (congrArg Prod.fst h)
  | ok q1 =>
    obtain ⟨funcs1, regions1⟩ := q1
    simp only [hp1] at h
    cases hp2 : BEFToMLIRConverter.pass2Go refs regions1 [] with
    | thrown => simp only [hp2] at h; exact Res.noConfusion (congrArg Prod.fst h)
    | fail => simp only [hp2] at h; exact Res.noConfusion (congrArg Prod.fst h)
    | ok q2 =>
      obtain ⟨assigns1, regions2a⟩ := q2
      simp only [hp2] at h
      split at h
      · exact Res.noConfusion (congrArg Prod.fst h)
      · injection h with h1 h2
        injection h1 with h1
        injection h1 with hf h1
        injection h1 with ha hreg
        subst hreg
        intro p hp
        rename_i hany
        rw [List.any_eq_true] at hany
        push_neg at hany
        have := hany p hp
        simpa using this

lemma ResolveFunctions_leftover (bef : BEFFile)
    (regions : List (Loc × Option MRegion))
    (refs : List ((Nat × Nat) × List Nat)) (funcs : List FuncOp)
    (regions1 : List (Loc × Option MRegion))
    (assigns : List ((Nat × Nat) × List MRegion))
    (regions2 : List (Loc × Option MRegion))
    (hp1 : BEFToMLIRConverter.pass1Go bef bef.function_index 0 regions [] =
      .ok (funcs, regions1))
    (hp2 : BEFToMLIRConverter.pass2Go refs regions1 [] =
      .ok (assigns, regions2))
    (hany : regions2.any (fun p => p.2.isSome) = true) :
    BEFToMLIRConverter.ResolveFunctions bef regions refs =
      (.fail, [⟨Sev.error, "Failed to resolve functions."⟩]) := by
  unfold BEFToMLIRConverter.ResolveFunctions
  simp only [hp1, hp2]
  rw [if_pos hany]

/-- C3.  After pass 2 of region stitching every deferred reference has
received, in index order, the regions of the function slots named by
its index list: a successful takeRegions returns exactly one region
per listed index, taken from the slot the index names, the index list
is duplicate free (each region moved exactly once), every moved slot
is emptied and all other slots unchanged, while an already emptied or
out of range slot aborts; a successful pass 2 processes the deferred
references in order through takeRegions; and when a region slot still
holds a region after the pass, ResolveFunctions fails with the error
"Failed to resolve functions." (and on success no slot still holds a
region). -/
theorem claim3_theorem :
    (∀ (idxs : List Nat) (regions : List (Loc × Option MRegion)) rs regions2,
      BEFToMLIRConverter.takeRegions regions idxs = .ok (rs, regions2) →
      rs.length = idxs.length ∧
      idxs.Nodup ∧
      (∀ l, l ∉ idxs → regions2[l]? = regions[l]?) ∧
      (∀ k (hk : k < idxs.length) (hr : k < rs.length), ∃ loc,
        regions[idxs.get ⟨k, hk⟩]? = some (loc, some (rs.get ⟨k, hr⟩)) ∧
        regions2[idxs.get ⟨k, hk⟩]? = some (loc, none))) ∧
    (∀ (refs : List ((Nat × Nat) × List Nat)) regions assigns regions2,
      BEFToMLIRConverter.pass2Go refs regions [] = .ok (assigns, regions2) →
      chainOk regions refs assigns regions2) ∧
    (∀ (bef : BEFFile) (regions : List (Loc × Option MRegion))
        (refs : List ((Nat × Nat) × List Nat)) funcs assigns regions2 ds,
      BEFToMLIRConverter.ResolveFunctions bef regions refs =
        (.ok (funcs, assigns, regions2), ds) →
      ∀ p ∈ regions2, p.2 = none) ∧
    (∀ (bef : BEFFile) (regions : List (Loc × Option MRegion))
        (refs : List ((Nat × Nat) × List Nat)) funcs regions1 assigns
        regions2,
      BEFToMLIRConverter.pass1Go bef bef.function_index 0 regions [] =
        .ok (funcs, regions1) →
      BEFToMLIRConverter.pass2Go refs regions1 [] = .ok (assigns, regions2) →
      regions2.any (fun p => p.2.isSome) = true →
      BEFToMLIRConverter.ResolveFunctions bef regions refs =
        (.fail, [⟨Sev.error, "Failed to resolve functions."⟩])) :=
  ⟨takeRegions_char, pass2Go_chain0, ResolveFunctions_ok_resolved,
   ResolveFunctions_leftover⟩

/-- C3 witness: on two concrete slots, moving slots 1 then 0 takes
each region exactly once; a one reference pass 2 run satisfies the
chain shape; a fully resolved run leaves the slot empty; and leaving
slot 0 unmoved makes ResolveFunctions fail with the resolution
error. -/
theorem claim3_witness :
    ([1, 0] : List Nat).Nodup ∧
    chainOk [(Loc.origin, some regionA)] [((0, 0), [0])]
      [((0, 0), [regionA])] [(Loc.origin, none)] ∧
    ((Loc.origin, none) : Loc × Option MRegion).2 = none ∧
    BEFToMLIRConverter.ResolveFunctions BEFFile.empty regions3c
        [((0, 0), [1])] =
      (.fail, [⟨Sev.error, "Failed to resolve functions."⟩]) :=
  ⟨(claim3_theorem.1 [1, 0] regions3c [regionB, regionA]
      [(Loc.origin, none), (Loc.origin, none)] rfl).2.1,
   claim3_theorem.2.1 [((0, 0), [0])] [(Loc.origin, some regionA)]
      [((0, 0), [regionA])] [(Loc.origin, none)] rfl,
   claim3_theorem.2.2.1 BEFFile.empty [(Loc.origin, some regionA)]
      [((0, 0), [0])] [] [((0, 0), [regionA])] [(Loc.origin, none)] [] rfl
      (Loc.origin, none) (List.mem_singleton_self _),
   claim3_theorem.2.2.2 BEFFile.empty regions3c [((0, 0), [1])] []
      regions3c [((0, 0), [regionB])]
      [(Loc.origin, some regionA), (Loc.origin, none)] rfl rfl rfl⟩
